import Mathlib

/-!
SubBoard: browser scripts of the administration panel.

A shallow embedding of `static/js/packages.js`, `static/js/nodes.js`,
`static/js/mihomo-template.js`, `static/js/change-password.js` and
`static/js/index.js`.

Conventions of the embedding.

* A JavaScript object used as a dictionary is an association list of its own
  properties, in insertion order.
* An `async` function that is not interleaved with other handlers is a pure
  function of the page state and of the replies of the backend; every request
  that is issued is appended to a log kept in the state.
* An exception that leaves a function is recorded next to the state it leaves
  behind.
-/

namespace SubBoard

/-! ## JavaScript dictionaries -/

/-- Own properties of a JavaScript object keyed by strings. -/
abbrev JsObject (α : Type) := List (String × α)

/-- Property read `o[key]`; `none` stands for `undefined`. -/
def jsGet {α : Type} : JsObject α → String → Option α
  | [], _ => none
  | (k, v) :: rest, key => if k = key then some v else jsGet rest key

/-- Property write `o[key] = v`. -/
def jsSet {α : Type} : JsObject α → String → α → JsObject α
  | [], key, v => [(key, v)]
  | (k, w) :: rest, key, v =>
    if k = key then (k, v) :: rest else (k, w) :: jsSet rest key v

/-- Property removal `delete o[key]`. -/
def jsDelete {α : Type} : JsObject α → String → JsObject α
  | [], _ => []
  | (k, w) :: rest, key =>
    if k = key then jsDelete rest key else (k, w) :: jsDelete rest key

/-- The list `Object.keys(o)`. -/
def jsKeys {α : Type} (o : JsObject α) : List String := o.map Prod.fst

/-- Truthiness of a boolean property that may be missing. -/
def jsTruthy (v : Option Bool) : Bool := v.getD false

/-- The test `s.startsWith(prefix)`. -/
def jsStartsWith (s pre : String) : Bool := pre.data.isPrefixOf s.data

/-! ## JavaScript strings -/

/-- White space and line terminators of ECMAScript, the characters that
`String.prototype.trim` strips and `parseInt` skips. -/
def isJsWhiteSpace (c : Char) : Bool :=
  let n := c.val.toNat
  n = 0x09 || n = 0x0A || n = 0x0B || n = 0x0C || n = 0x0D || n = 0x20 || n = 0xA0
    || n = 0x1680 || (0x2000 ≤ n && n ≤ 0x200A) || n = 0x2028 || n = 0x2029
    || n = 0x202F || n = 0x205F || n = 0x3000 || n = 0xFEFF

/-- Pieces of a list of characters between the occurrences of `sep`. -/
def splitChars (sep : Char) : List Char → List (List Char)
  | [] => [[]]
  | c :: cs =>
    if c = sep then [] :: splitChars sep cs
    else
      match splitChars sep cs with
      | [] => [[c]]
      | part :: parts => (c :: part) :: parts

/-- The call `s.split(sep)` for a separator of one character. -/
def jsSplit (s : String) (sep : Char) : List String :=
  (splitChars sep s.data).map String.mk

/-- Value of a character as a digit in `radix`, if it is one. -/
def digitValue (radix : Nat) (c : Char) : Option Nat :=
  let n := c.val.toNat
  let v :=
    if 48 ≤ n ∧ n ≤ 57 then some (n - 48)
    else if 97 ≤ n ∧ n ≤ 122 then some (n - 87)
    else if 65 ≤ n ∧ n ≤ 90 then some (n - 55)
    else none
  match v with
  | some d => if d < radix then some d else none
  | none => none

/-- Reads the longest run of digits in `radix` at the head of a list; `none`
when the run is empty, otherwise the number read so far extended by the run. -/
def readDigits (radix : Nat) : Option Nat → List Char → Option Nat
  | acc, [] => acc
  | acc, c :: cs =>
    match digitValue radix c with
    | none => acc
    | some d => readDigits radix (some (acc.getD 0 * radix + d)) cs

/-- The digits that `parseInt` reads after the sign: hexadecimal after a
prefix `0x` or `0X`, decimal otherwise. -/
def parseMagnitude (unsigned : List Char) : Option Nat :=
  match unsigned with
  | '0' :: 'x' :: rest => readDigits 16 none rest
  | '0' :: 'X' :: rest => readDigits 16 none rest
  | _ => readDigits 10 none unsigned

/-- Number of binary digits of `n`, computed with `fuel` steps. -/
def bitLengthAux : Nat → Nat → Nat
  | 0, _ => 0
  | fuel + 1, n => if n = 0 then 0 else bitLengthAux fuel (n / 2) + 1

/-- Number of binary digits of `n`. -/
def bitLength (n : Nat) : Nat := bitLengthAux n n

/-- The Number value of a natural number: the number itself below `2 ^ 53`,
otherwise the nearest number with 53 significant binary digits, ties to the
even one; `none` when the result is `Infinity`. -/
def toNumber (n : Nat) : Option Nat :=
  if n < 2 ^ 53 then some n
  else
    let e := bitLength n - 53
    let q := n / 2 ^ e
    let r := n % 2 ^ e
    let q1 := if 2 ^ e < 2 * r ∨ (2 * r = 2 ^ e ∧ q % 2 = 1) then q + 1 else q
    if bitLength (q1 * 2 ^ e) ≤ 1024 then some (q1 * 2 ^ e) else none

/-- The call `parseInt(s)` with no radix argument: the integer that the result
denotes when it is a finite number, `none` when it is `NaN` or infinite. -/
def parseInt (s : String) : Option Int :=
  let body := s.data.dropWhile isJsWhiteSpace
  match body with
  | '-' :: rest => ((parseMagnitude rest).bind toNumber).map fun m => -(m : Int)
  | '+' :: rest => ((parseMagnitude rest).bind toNumber).map fun m => (m : Int)
  | _ => ((parseMagnitude body).bind toNumber).map fun m => (m : Int)

/-- The character of a decimal digit. -/
def digitChar (d : Nat) : Char := Char.ofNat (48 + d)

/-- A character is one of `0` to `9`. -/
def isDecimalDigit (c : Char) : Prop := ∃ d, d < 10 ∧ c = digitChar d

/-- Decimal digits of `n`, most significant first, computed with `fuel` steps. -/
def natDigitsAux : Nat → Nat → List Char
  | 0, _ => []
  | fuel + 1, n =>
    if n < 10 then [digitChar n]
    else natDigitsAux fuel (n / 10) ++ [digitChar (n % 10)]

/-- Decimal digits of a natural number, most significant first. -/
def natDigits (n : Nat) : List Char := natDigitsAux (n + 1) n

/-- Text of an integer `n` interpolated into a template literal, plain decimal
notation (the text of every integer below `10^21` in absolute value). -/
def jsIntToString (n : Int) : String :=
  match n with
  | Int.ofNat m => String.mk (natDigits m)
  | Int.negSucc m => String.mk ('-' :: natDigits (m + 1))

/-- The call `s.trim()`. -/
def jsTrim (s : String) : String :=
  String.mk ((s.data.dropWhile isJsWhiteSpace).reverse.dropWhile isJsWhiteSpace).reverse

/-- Length of a string in UTF-16 code units, the property `s.length`. -/
def jsLength (s : String) : Nat :=
  (s.data.map fun c => if c.val.toNat < 65536 then 1 else 2).sum

/-- Message of the `TypeError` raised by a property access on `null` or
`undefined`. -/
def nullError : String := "TypeError: null has no properties"

/-! ## Replies of the backend -/

/-- What a `fetch` followed by `response.json()` produces. -/
inductive Reply (α : Type) where
  /-- The promise of `fetch` is rejected with an error carrying `message`. -/
  | rejected (message : String)
  /-- The promise of `response.json()` is rejected: the body is not JSON. -/
  | badBody (message : String)
  /-- The body parsed to `data`. -/
  | json (data : α)
deriving Repr, DecidableEq

/-- Outcome of running a handler: the state left behind and the exception that
escaped, if any. -/
structure Run (σ : Type) where
  state : σ
  thrown : Option String
deriving Repr, DecidableEq

namespace Packages

/-- A node as listed by `GET /packages/get_nodes/:board_name`. The identifier
is an integer of the JSON document. -/
structure NodeRec where
  id : Int
  name : String
deriving Repr, DecidableEq

/-- Body of `GET /packages/get_nodes/:board_name`; `nodes = none` when the
field is missing or `null`. -/
structure NodesData where
  success : Bool
  nodes : Option (List NodeRec)
deriving Repr, DecidableEq

/-- Body of `POST /packages/refresh_nodes`. -/
structure RefreshData where
  success : Bool
  message : Option String
deriving Repr, DecidableEq

/-- The backend as seen from the page: the reply to a request depends on the
number of requests issued before it and on what is requested. -/
structure Backend where
  getNodes : Nat → String → Reply NodesData
  refreshNodes : Nat → Reply RefreshData

/-- One `div.node-item` written by `loadNodes`: the checkbox `nodes[]` and the
numeric rate input next to it. -/
structure NodeRow where
  value : String
  checked : Bool
  label : String
  rateName : String
  rateId : String
  rateValue : String
deriving Repr, DecidableEq

/-- Content of a node-list panel, the element tree that its `innerHTML`
denotes. -/
inductive PanelBody where
  /-- Markup that came with the page. -/
  | template (html : String)
  /-- The rows written for a non-empty node list. -/
  | rows (items : List NodeRow)
  /-- The placeholder `<div class="no-data">该服务器暂无节点</div>`. -/
  | noData
  /-- The placeholder `<div class="error-text">加载失败</div>`. -/
  | loadFailed
deriving Repr, DecidableEq

/-- The element `#{formType}_nodes_{boardName}` with what the scripts reach
from it: its inline `display`, its content, whether `closest('.server-group')`
finds an ancestor, the text of the `.toggle-icon` of that ancestor when there
is one, and whether the element lies inside `#editPackageModal`. -/
structure Panel where
  display : String
  body : PanelBody
  hasServerGroup : Bool
  toggleIcon : Option String
  inEditModal : Bool
deriving Repr, DecidableEq

/-- The button `.btn-refresh` that triggered `refreshAllNodes`. -/
structure Button where
  disabled : Bool
  innerHTML : String
deriving Repr, DecidableEq

/-- A node selection of a package, as the server hands it to `editPackage`.
`traffic_rate` is the text that the number takes when it is assigned to the
`value` of an input. -/
structure Selection where
  board_name : String
  inbound_id : Int
  node_name : String
  traffic_rate : String
deriving Repr, DecidableEq

/-- State of the packages page: the two module-level dictionaries, the DOM
elements the script touches (the panels by element id, listed in document
order), `window.serversData`, the observable effects
(requests issued, alerts shown, console errors), oldest first, and the
callbacks that `editPackage` has handed to `setTimeout` and that have not run
yet, each with the selections it closes over. -/
structure Page where
  nodesCache : JsObject (List NodeRec)
  loadedServers : JsObject Bool
  panels : JsObject Panel
  serversData : List String
  refreshBtn : Button
  editName : String
  editTotalTraffic : String
  editFormAction : String
  editModalDisplay : String
  requests : List String
  alerts : List String
  consoleErrors : List String
  timers : List (List Selection)
deriving Repr, DecidableEq

/-! ## `packages.js` -/

/-- Element id of the node-list panel of a server in a form. -/
def panelId (formType boardName : String) : String :=
  formType ++ "_nodes_" ++ boardName

/-- Key of `loadedServers` for a server in a form. -/
def loadedKey (formType boardName : String) : String :=
  formType ++ "_" ++ boardName

/-- Address requested by `loadNodes`. -/
def getNodesUrl (boardName : String) : String :=
  "/packages/get_nodes/" ++ boardName

/-- Address requested by `refreshAllNodes`. -/
def refreshUrl : String := "/packages/refresh_nodes"

/-- Code units that `/[^a-zA-Z0-9_]/g` leaves in place. -/
def isWordChar (c : Char) : Bool :=
  ('a' ≤ c && c ≤ 'z') || ('A' ≤ c && c ≤ 'Z') || ('0' ≤ c && c ≤ '9') || c = '_'

/-- The call `.replace(/[^a-zA-Z0-9_]/g, '_')`: every UTF-16 code unit outside
the class becomes an underscore, so a character outside the basic plane
becomes two. -/
def sanitizeId (s : String) : String :=
  String.mk (s.data.flatMap fun c =>
    if isWordChar c then [c] else if c.val.toNat < 65536 then ['_'] else ['_', '_'])

/-- Code points that are not read back as themselves from the markup that
`loadNodes` builds or from the attribute selector that `editPackage` builds:
NUL, line feed, form feed, carriage return, the double quote, the ampersand,
the less-than sign and the backslash. -/
def markupSpecial : List Nat := [0, 10, 12, 13, 34, 38, 60, 92]

/-- A name that markup and attribute selectors read back as it stands. -/
def plainName (s : String) : Bool :=
  s.data.all fun c => !markupSpecial.contains c.val.toNat

/-- Name attribute of the rate input of a node. -/
def rateInputName (boardName nodeName : String) : String :=
  "rate_" ++ boardName ++ "_" ++ nodeName

/-- The row that `loadNodes` writes for one node of `boardName`, as the
markup is parsed when both names are plain and the id is an integer below
`10 ^ 21` in absolute value. -/
def renderNode (boardName : String) (node : NodeRec) : NodeRow :=
  { value := boardName ++ "|" ++ jsIntToString node.id ++ "|" ++ node.name
    checked := false
    label := node.name
    rateName := rateInputName boardName node.name
    rateId := sanitizeId (rateInputName boardName node.name)
    rateValue := "1.0" }

/-- Assignment `nodesList.innerHTML = body`; raises when the panel is not in
the document. -/
def setPanelBody (elemId : String) (body : PanelBody) (p : Page) : Run Page :=
  match jsGet p.panels elemId with
  | some panel =>
    { state := { p with panels := jsSet p.panels elemId { panel with body := body } }
      thrown := none }
  | none => { state := p, thrown := some nullError }

/-- The `catch` block of `loadNodes`. -/
def loadNodesCatch (elemId : String) (message : String) (p : Page) : Run Page :=
  setPanelBody elemId PanelBody.loadFailed
    { p with consoleErrors := p.consoleErrors ++ ["加载节点失败: " ++ message] }

/-- An assignment to `nodesList.innerHTML` inside the `try` block of
`loadNodes`: an exception it raises is handled by the `catch` block. -/
def tryWritePanel (elemId : String) (body : PanelBody) (p : Page) : Run Page :=
  let r := setPanelBody elemId body p
  match r.thrown with
  | none => r
  | some message => loadNodesCatch elemId message r.state

/-- Names of the members that an object literal inherits from
`Object.prototype`; a read of any of them yields a truthy value. -/
def inheritedKeys : List String :=
  ["constructor", "__defineGetter__", "__defineSetter__", "hasOwnProperty",
   "__lookupGetter__", "__lookupSetter__", "isPrototypeOf", "propertyIsEnumerable",
   "toString", "valueOf", "__proto__", "toLocaleString"]

/-- The statement `if (!nodesCache[boardName]) nodesCache[boardName] = data.nodes`:
the read finds an own entry or an inherited member, and only when it finds
neither is the entry written. -/
def cacheNodes (boardName : String) (nodes : List NodeRec) (p : Page) : Page :=
  if inheritedKeys.contains boardName then p
  else
    match jsGet p.nodesCache boardName with
    | some _ => p
    | none => { p with nodesCache := jsSet p.nodesCache boardName nodes }

/-- The function `loadNodes(formType, boardName)` of `packages.js`. -/
def loadNodes (srv : Backend) (formType boardName : String) (p : Page) : Run Page :=
  let elemId := panelId formType boardName
  let p1 : Page := { p with requests := p.requests ++ [getNodesUrl boardName] }
  match srv.getNodes p.requests.length boardName with
  | Reply.rejected message => loadNodesCatch elemId message p1
  | Reply.badBody message => loadNodesCatch elemId message p1
  | Reply.json data =>
    match data.success, data.nodes with
    | true, some (node :: more) =>
      tryWritePanel elemId (PanelBody.rows ((node :: more).map (renderNode boardName)))
        (cacheNodes boardName (node :: more) p1)
    | _, _ => tryWritePanel elemId PanelBody.noData p1

/-- Assignment `loadedServers[formType_boardName] = true`. -/
def markLoaded (formType boardName : String) (p : Page) : Page :=
  { p with loadedServers := jsSet p.loadedServers (loadedKey formType boardName) true }

/-- The guarded load shared by `toggleServerNodes` and `editPackage`:
`if (!loadedServers[key]) { await loadNodes(..); loadedServers[key] = true; }`. -/
def loadIfNeeded (srv : Backend) (formType boardName : String) (p : Page) : Run Page :=
  if jsTruthy (jsGet p.loadedServers (loadedKey formType boardName)) then
    { state := p, thrown := none }
  else
    let r := loadNodes srv formType boardName p
    match r.thrown with
    | some message => { state := r.state, thrown := some message }
    | none => { state := markLoaded formType boardName r.state, thrown := none }

/-- Writes `display` and the text of the toggle icon of a panel that is known
to be in the document; raises after the first write when there is no icon. -/
def showPanel (elemId : String) (panel : Panel) (display icon : String) (p : Page) :
    Run Page :=
  let shown : Panel := { panel with display := display }
  match panel.toggleIcon with
  | none => { state := { p with panels := jsSet p.panels elemId shown }
              thrown := some nullError }
  | some _ =>
    { state := { p with panels := jsSet p.panels elemId { shown with toggleIcon := some icon } }
      thrown := none }

/-- The function `toggleServerNodes(formType, boardName)`. -/
def toggleServerNodes (srv : Backend) (formType boardName : String) (p : Page) : Run Page :=
  let elemId := panelId formType boardName
  match jsGet p.panels elemId with
  | none => { state := p, thrown := some nullError }
  | some panel =>
    if !panel.hasServerGroup then { state := p, thrown := some nullError }
    else if panel.display = "none" then
      let r := showPanel elemId panel "block" "▲" p
      match r.thrown with
      | some message => { state := r.state, thrown := some message }
      | none => loadIfNeeded srv formType boardName r.state
    else showPanel elemId panel "none" "▼" p

/-- Markup shown in the refresh button while `refreshAllNodes` runs. -/
def spinnerHTML : String :=
  "\n        <svg class=\"icon spinning\" viewBox=\"0 0 24 24\" fill=\"none\" stroke=\"currentColor\" stroke-width=\"2\">\n            <polyline points=\"23 4 23 10 17 10\"></polyline>\n            <polyline points=\"1 20 1 14 7 14\"></polyline>\n            <path d=\"M3.51 9a9 9 0 0 1 14.85-3.36L23 10M1 14l4.64 4.36A9 9 0 0 0 20.49 15\"></path>\n        </svg>\n        刷新中...\n    "

/-- The loop `Object.keys(loadedServers).forEach(key => ...)` of
`refreshAllNodes`: removes the keys that start with `formType + '_'`. -/
def clearLoaded (formType : String) (loaded : JsObject Bool) : JsObject Bool :=
  (jsKeys loaded).foldl
    (fun o key => if jsStartsWith key (formType ++ "_") then jsDelete o key else o) loaded

/-- The loop `Object.keys(nodesCache).forEach(key => delete nodesCache[key])`. -/
def clearCache (cache : JsObject (List NodeRec)) : JsObject (List NodeRec) :=
  (jsKeys cache).foldl (fun o key => jsDelete o key) cache

/-- The loop `for (const boardName of servers)` of `refreshAllNodes`; it stops
at the first exception. -/
def reloadAll (srv : Backend) (formType : String) : List String → Page → Run Page
  | [], p => { state := p, thrown := none }
  | boardName :: rest, p =>
    let r := loadNodes srv formType boardName p
    match r.thrown with
    | some message => { state := r.state, thrown := some message }
    | none => reloadAll srv formType rest (markLoaded formType boardName r.state)

/-- The `try` block of `refreshAllNodes`. -/
def refreshAllNodesTry (srv : Backend) (formType : String) (p : Page) : Run Page :=
  let p1 : Page := { p with requests := p.requests ++ [refreshUrl] }
  match srv.refreshNodes p.requests.length with
  | Reply.rejected message => { state := p1, thrown := some message }
  | Reply.badBody message => { state := p1, thrown := some message }
  | Reply.json data =>
    if data.success then
      reloadAll srv formType p1.serversData
        { p1 with nodesCache := clearCache p1.nodesCache
                  loadedServers := clearLoaded formType p1.loadedServers }
    else
      let shown := match data.message with
        | some m => if m = "" then "未知错误" else m
        | none => "未知错误"
      { state := { p1 with alerts := p1.alerts ++ ["刷新失败: " ++ shown] }, thrown := none }

/-- The function `refreshAllNodes(formType)`; `p.refreshBtn` is the button
found by `event.target.closest('.btn-refresh')`. -/
def refreshAllNodes (srv : Backend) (formType : String) (p : Page) : Run Page :=
  let originalHTML := p.refreshBtn.innerHTML
  let p0 : Page := { p with refreshBtn := { disabled := true, innerHTML := spinnerHTML } }
  let r := refreshAllNodesTry srv formType p0
  let caught : Page :=
    match r.thrown with
    | none => r.state
    | some message =>
      { r.state with
        consoleErrors := r.state.consoleErrors ++ ["刷新节点失败: " ++ message]
        alerts := r.state.alerts ++ ["刷新失败: " ++ message] }
  { state := { caught with refreshBtn := { disabled := false, innerHTML := originalHTML } }
    thrown := none }

/-! ### `editPackage`

The inputs of `#editPackageModal` that the script reaches are the checkboxes
`nodes[]` and the rate inputs of the rows written by `loadNodes`, in document
order; board and node names are taken free of the metacharacters of markup and
of attribute selectors, so that a row is found again under the names it was
written with. -/

/-- Rows of the panels inside `#editPackageModal`, in document order. -/
def modalRows : JsObject Panel → List NodeRow
  | [] => []
  | (_, panel) :: rest =>
    match panel.inEditModal, panel.body with
    | true, PanelBody.rows items => items ++ modalRows rest
    | _, _ => modalRows rest

/-- Writes a list of rows back over the rows of the panels inside
`#editPackageModal`, panel by panel. -/
def setModalRows : List NodeRow → JsObject Panel → JsObject Panel
  | _, [] => []
  | rows, (k, panel) :: rest =>
    match panel.inEditModal, panel.body with
    | true, PanelBody.rows items =>
      (k, { panel with body := PanelBody.rows (rows.take items.length) })
        :: setModalRows (rows.drop items.length) rest
    | _, _ => (k, panel) :: setModalRows rows rest

/-- The two reset loops of `editPackage`: every checkbox of the modal is
unchecked and every `.rate-field` of the modal is set to `'1.0'`. -/
def resetRows (rows : List NodeRow) : List NodeRow :=
  rows.map fun r => { r with checked := false, rateValue := "1.0" }

/-- The statement `checkbox.checked = true` for the checkbox at position `i`. -/
def setChecked : Nat → List NodeRow → List NodeRow
  | _, [] => []
  | 0, r :: rs => { r with checked := true } :: rs
  | i + 1, r :: rs => r :: setChecked i rs

/-- The statements `rateInput = document.querySelector('#editPackageModal
input[name="..."]'); if (rateInput) rateInput.value = rate` for a plain name:
the first input of the modal that carries the name receives the value. -/
def setFirstRate (name rate : String) : List NodeRow → List NodeRow
  | [] => []
  | r :: rs =>
    if r.rateName = name then { r with rateValue := rate } :: rs
    else r :: setFirstRate name rate rs

/-- Body of `checkboxes.forEach(checkbox => ...)` for the checkbox at position
`i` and the selection `node`. -/
def visitCheckbox (node : Selection) (i : Nat) (rows : List NodeRow) : List NodeRow :=
  match rows[i]? with
  | none => rows
  | some checkbox =>
    match jsSplit checkbox.value '|' with
    | [boardName, inboundId, nodeName] =>
      if boardName = node.board_name ∧ parseInt inboundId = some node.inbound_id then
        setFirstRate (rateInputName boardName nodeName) node.traffic_rate (setChecked i rows)
      else rows
    | _ => rows

/-- Body of `nodes.forEach(node => ...)`: all checkboxes of the modal are
visited in document order. -/
def restoreSelection (node : Selection) (rows : List NodeRow) : List NodeRow :=
  (List.range rows.length).foldl (fun rs i => visitCheckbox node i rs) rows

/-- The callback that `editPackage` passes to `setTimeout`, on the rows of the
modal. -/
def restoreSelections (nodes : List Selection) (rows : List NodeRow) : List NodeRow :=
  nodes.foldl (fun rs node => restoreSelection node rs) rows

/-- The loop `for (const boardName of servers)` of `editPackage`. -/
def expandAll (srv : Backend) : List String → Page → Run Page
  | [], p => { state := p, thrown := none }
  | boardName :: rest, p =>
    match jsGet p.panels (panelId "edit" boardName) with
    | none => expandAll srv rest p
    | some panel =>
      if !panel.hasServerGroup then expandAll srv rest p
      else
        let r := showPanel (panelId "edit" boardName) panel "block" "▲" p
        match r.thrown with
        | some message => { state := r.state, thrown := some message }
        | none =>
          let r2 := loadIfNeeded srv "edit" boardName r.state
          match r2.thrown with
          | some message => { state := r2.state, thrown := some message }
          | none => expandAll srv rest r2.state

/-- The function `editPackage(packageId, name, totalTraffic, nodes)` up to its
return; the reconciliation is left in `timers`. -/
def editPackage (srv : Backend) (packageId name totalTraffic : String)
    (nodes : List Selection) (p : Page) : Run Page :=
  let p1 : Page :=
    { p with
      editName := name
      editTotalTraffic := totalTraffic
      editFormAction := "/packages/edit/" ++ packageId
      panels := setModalRows (resetRows (modalRows p.panels)) p.panels }
  let r := expandAll srv p1.serversData p1
  match r.thrown with
  | some message => { state := r.state, thrown := some message }
  | none =>
    { state := { r.state with timers := r.state.timers ++ [nodes], editModalDisplay := "block" }
      thrown := none }

/-- The oldest pending `setTimeout` callback of `editPackage` runs. -/
def runTimer (p : Page) : Page :=
  match p.timers with
  | [] => p
  | nodes :: rest =>
    { p with
      timers := rest
      panels := setModalRows (restoreSelections nodes (modalRows p.panels)) p.panels }

/-- The rows that `loadNodes` writes for a list of servers with their nodes. -/
def renderServers (servers : List (String × List NodeRec)) : List NodeRow :=
  servers.flatMap fun sn => sn.2.map (renderNode sn.1)

/-! ### Reference description of the reconciliation -/

/-- The test that `visitCheckbox` applies to a checkbox for a selection. -/
def matchesRow (node : Selection) (r : NodeRow) : Bool :=
  match jsSplit r.value '|' with
  | [boardName, inboundId, _] =>
    decide (boardName = node.board_name ∧ parseInt inboundId = some node.inbound_id)
  | _ => false

/-- A row after one selection has been applied to it alone. -/
def selectRow (node : Selection) (r : NodeRow) : NodeRow :=
  if matchesRow node r then { r with checked := true, rateValue := node.traffic_rate } else r

/-- The rate input of a row carries the name that the reconciliation computes
from the value of its checkbox. -/
def WellNamed (r : NodeRow) : Prop :=
  ∀ b i n, jsSplit r.value '|' = [b, i, n] → r.rateName = rateInputName b n

/-- The last selection of a list with the given board name and inbound id. -/
def lastSelection (nodes : List Selection) (boardName : String) (id : Int) :
    Option Selection :=
  nodes.foldl
    (fun found s => if s.board_name = boardName ∧ s.inbound_id = id then some s else found)
    none

/-- What the edit form is to show for a node: checked with the rate of its
last selection when it has one, unchecked with rate `1.0` otherwise. -/
def restoredRow (nodes : List Selection) (boardName : String) (node : NodeRec) : NodeRow :=
  match lastSelection nodes boardName node.id with
  | some s => { renderNode boardName node with checked := true, rateValue := s.traffic_rate }
  | none => renderNode boardName node

/-- Number of requests for the node list of `boardName` in a request log. -/
def nodeFetches (boardName : String) (p : Page) : Nat :=
  p.requests.count (getNodesUrl boardName)

/-! ## Sample data -/

/-- A panel as the page template delivers it: hidden, empty, inside a server
group with a downward toggle icon. -/
def freshPanel (inEditModal : Bool) : Panel :=
  { display := "none", body := PanelBody.template "", hasServerGroup := true
    toggleIcon := some "▼", inEditModal := inEditModal }

/-- A packages page with the servers `srv1` and `srv2`, nothing loaded. -/
def samplePage : Page :=
  { nodesCache := []
    loadedServers := []
    panels := [("add_nodes_srv1", freshPanel false), ("add_nodes_srv2", freshPanel false),
               ("edit_nodes_srv1", freshPanel true), ("edit_nodes_srv2", freshPanel true)]
    serversData := ["srv1", "srv2"]
    refreshBtn := { disabled := false, innerHTML := "刷新节点" }
    editName := ""
    editTotalTraffic := ""
    editFormAction := ""
    editModalDisplay := "none"
    requests := []
    alerts := []
    consoleErrors := []
    timers := [] }

/-- A backend that always answers: two nodes on `srv1`, one on every other
server, and a successful refresh. -/
def sampleBackend : Backend :=
  { getNodes := fun _ boardName =>
      if boardName = "srv1" then
        Reply.json { success := true, nodes := some [⟨5, "hk"⟩, ⟨7, "jp"⟩] }
      else Reply.json { success := true, nodes := some [⟨5, "us"⟩] }
    refreshNodes := fun _ => Reply.json { success := true, message := none } }

/-- The sample page after earlier use: a server `old` that is no longer listed
is cached and marked for the add form, and `srv1` is marked for the edit form. -/
def usedPage : Page :=
  { samplePage with
    nodesCache := [("old", [⟨1, "gone"⟩])]
    loadedServers := [("add_old", true), ("edit_srv1", true)] }

/-- The node lists that `sampleBackend` serves, by server. -/
def sampleServers : List (String × List NodeRec) :=
  [("srv1", [⟨5, "hk"⟩, ⟨7, "jp"⟩]), ("srv2", [⟨5, "us"⟩])]

/-- The rows of a panel content. -/
def bodyRows : PanelBody → List NodeRow
  | PanelBody.rows items => items
  | _ => []

/-- Every row of a list is unchecked with rate `1.0`. -/
def allReset (rows : List NodeRow) : Prop :=
  ∀ r ∈ rows, r.checked = false ∧ r.rateValue = "1.0"

/-- Two states of a panel that differ at most in the content. -/
def sameFrame (a b : Panel) : Prop :=
  a.display = b.display ∧ a.hasServerGroup = b.hasServerGroup ∧
  a.toggleIcon = b.toggleIcon ∧ a.inEditModal = b.inEditModal

/-- A backend whose refresh endpoint reports a failure with a message. -/
def failingBackend : Backend :=
  { getNodes := fun _ _ => Reply.json { success := true, nodes := some [⟨5, "hk"⟩] }
    refreshNodes := fun _ => Reply.json { success := false, message := some "上游超时" } }

end Packages

namespace Template

/-! ## `mihomo-template.js`: the submit handler of `#templateForm` -/

/-- What the submit handler leaves behind: whether `e.preventDefault()` was
called, and the alert shown, if any. -/
structure Submit where
  prevented : Bool
  alert : Option String
deriving Repr, DecidableEq

/-- The test `line.includes('\t')`. -/
def hasTab (line : String) : Bool := line.data.contains '\t'

/-- Message built for the line with index `i`. -/
def tabMessage (i : Nat) : String :=
  "第 " ++ jsIntToString ((i : Int) + 1) ++ " 行包含 Tab 字符，YAML 不允许使用 Tab 缩进，请使用空格"

/-- The loop `for (let i = 0; i < lines.length; i++)` from index `i` on, over
the lines not yet visited; the result is the pair `hasError`, `errorMessage`. -/
def scanLines : List String → Nat → Bool × String
  | [], _ => (false, "")
  | line :: rest, i =>
    if hasTab line then (true, tabMessage i) else scanLines rest (i + 1)

/-- The submit handler, as a function of the text of `#template_content`. -/
def onSubmit (value : String) : Submit :=
  let content := jsTrim value
  if content = "" then
    { prevented := true, alert := some "模板内容不能为空！" }
  else
    let lines := jsSplit content '\n'
    let scan := scanLines lines 0
    if scan.1 then
      { prevented := true, alert := some ("YAML 格式错误:\n" ++ scan.2) }
    else
      { prevented := false, alert := none }

/-- Position in a list of lines, counted from zero, of the first line that
contains a tab. -/
def firstTabIndex : List String → Option Nat
  | [] => none
  | line :: rest => if hasTab line then some 0 else (firstTabIndex rest).map (· + 1)

/-- Number, counted from one, of the first line of a text that contains a tab. -/
def firstTabLine (text : String) : Option Nat :=
  (firstTabIndex (jsSplit text '\n')).map (· + 1)

end Template

namespace Nodes

/-! ## `nodes.js` -/

/-- The table `sizes` of `formatBytes`. -/
def sizes : List String := ["B", "KB", "MB", "GB", "TB"]

/-- The text that `sizes[i]` contributes to a concatenation: the entry, or
`undefined` past the end of the table. -/
def sizeText (i : Nat) : String := (sizes[i]?).getD "undefined"

/-- Number of times `n` can be divided by `k` before it drops below `k`,
computed with `fuel` steps. -/
def floorLogAux (k : Nat) : Nat → Nat → Nat
  | 0, _ => 0
  | fuel + 1, n => if n < k then 0 else floorLogAux k fuel (n / k) + 1

/-- The integer part of the logarithm of `n` to base `k`, the mathematical value
that the index expression of `formatBytes` approximates. -/
def floorLog (k n : Nat) : Nat := floorLogAux k n n

/-- The integer `n` for which `n / 100` is nearest to `num / den`, the larger
one on a tie, as `Number.prototype.toFixed` chooses it. -/
def nearestHundredth (num den : Nat) : Nat := (200 * num + den) / (2 * den)

/-- Text of `n / 100` with two decimals. -/
def hundredthsText (n : Nat) : String :=
  String.mk (natDigits (n / 100) ++ ['.', digitChar (n / 10 % 10), digitChar (n % 10)])

/-- The call `(num / den).toFixed(2)` for a quotient of natural numbers below
`10 ^ 21`. -/
def toFixed2 (num den : Nat) : String := hundredthsText (nearestHundredth num den)

/-- The function `formatBytes(bytes)` on a byte count that is a natural
number. The value of `Math.floor(Math.log(bytes) / Math.log(k))` is computed
in binary floating point from a logarithm that the language leaves to the
engine, so it enters as the parameter `unitIndex`; the division by a power of
1024 is exact in binary floating point. -/
def formatBytes (unitIndex : Nat → Nat) (bytes : Nat) : String :=
  if bytes = 0 then "0 B"
  else
    let k := 1024
    let i := unitIndex bytes
    toFixed2 bytes (k ^ i) ++ " " ++ sizeText i

/-- The test `s.endsWith(suffix)`. -/
def jsEndsWith (s suffix : String) : Bool := suffix.data.isSuffixOf s.data

/-- An inbound record of `GET /api/inbounds`; a field is `none` when it is
missing or falsy. -/
structure Inbound where
  remark : Option String
  protocol : Option String
  enable : Bool
  up : Nat
  down : Nat
  total : Nat
  traffic_rate : Option String
  board_name : Option String
deriving Repr, DecidableEq

/-- The texts that `createNodeCard` puts into a card. -/
structure Card where
  nodeName : String
  statusBadge : String
  trafficRateBadge : Option String
  used : String
  up : String
  down : String
  boardName : String
  protocol : String
deriving Repr, DecidableEq

/-- The function `createNodeCard(inbound)`, for the engine's `unitIndex` of
`formatBytes`. -/
def createNodeCard (unitIndex : Nat → Nat) (inbound : Inbound) : Card :=
  { nodeName := inbound.remark.getD "未命名节点"
    statusBadge := if inbound.enable then "可用" else "不可用"
    trafficRateBadge := inbound.traffic_rate.map fun r => "×" ++ r
    used := formatBytes unitIndex (inbound.up + inbound.down)
    up := formatBytes unitIndex inbound.up
    down := formatBytes unitIndex inbound.down
    boardName := inbound.board_name.getD "未知服务器"
    protocol := inbound.protocol.getD "N/A" }

/-- Parsed body of `GET /api/inbounds`; a text field is `none` when it is
missing. -/
structure InboundsData where
  error : Option String
  package_name : Option String
  inbounds : Option (List Inbound)
  message : Option String
deriving Repr, DecidableEq

/-- What the two awaits of `loadNodes` produce. -/
inductive Response where
  /-- The promise of `fetch` is rejected with an error carrying `message`. -/
  | rejected (message : String)
  /-- A response with status flag `ok` arrived and `response.json()` is
  rejected with an error carrying `message`. -/
  | badBody (ok : Bool) (message : String)
  /-- A response with status flag `ok` arrived and its body parsed to `data`. -/
  | json (ok : Bool) (data : InboundsData)
deriving Repr, DecidableEq

/-- A child of `#nodesGrid`. -/
inductive GridChild where
  /-- The element `<div class="no-data">message</div>`. -/
  | noData (message : String)
  /-- A card appended by the delayed callback. -/
  | card (c : Card)
  /-- Markup that came with the page. -/
  | template (html : String)
deriving Repr, DecidableEq

/-- State of the node page: the module flag `isLoading`, the elements that
`loadNodes` touches, the requests issued so far, the console errors, and the
`setTimeout` callbacks that have not run yet, each with the records it closes
over. The pair `packageInfo` holds the text and the `display` of the package
banner when both of its elements are in the document. -/
structure View where
  isLoading : Bool
  loadingIndicatorDisplay : String
  errorMessageDisplay : String
  errorText : String
  nodesGrid : List GridChild
  nodesGridOpacity : String
  refreshBtnDisabled : Bool
  packageInfo : Option (String × String)
  requests : List String
  consoleErrors : List String
  timers : List (List Inbound)
deriving Repr, DecidableEq

/-- The operator `a || b` on texts: `a` unless it is missing or empty. -/
def jsOr (a : Option String) (b : String) : String :=
  match a with
  | some t => if t = "" then b else t
  | none => b

/-- Statements of `loadNodes` from the guard to the call of `fetch`, for a
call that passes the guard. -/
def loadNodesBegin (v : View) : View :=
  { v with
    isLoading := true
    loadingIndicatorDisplay := "block"
    errorMessageDisplay := "none"
    nodesGrid := []
    refreshBtnDisabled := true
    requests := v.requests ++ ["/api/inbounds"] }

/-- The statements of the `try` block after a body has parsed with `ok` set. -/
def showInbounds (data : InboundsData) (v : View) : Run View :=
  let v1 : View := { v with loadingIndicatorDisplay := "none" }
  let banner : Run View :=
    match data.package_name, v1.packageInfo with
    | some name, some _ =>
      if name = "" then { state := v1, thrown := none }
      else
        match data.inbounds with
        | none => { state := v1, thrown := some nullError }
        | some items =>
          let text := "当前套餐: " ++ name ++ " | 共 " ++ jsIntToString items.length ++ " 个节点"
          { state := { v1 with packageInfo := some (text, "flex") }, thrown := none }
    | _, _ => { state := v1, thrown := none }
  match banner.thrown with
  | some message => { state := banner.state, thrown := some message }
  | none =>
    match data.inbounds with
    | some (item :: more) =>
      { state := { banner.state with
                   nodesGridOpacity := "0"
                   timers := banner.state.timers ++ [item :: more] }
        thrown := none }
    | _ =>
      { state := { banner.state with
                   nodesGrid := [GridChild.noData (jsOr data.message "暂无节点信息")] }
        thrown := none }

/-- The `try` block of `loadNodes` after the two awaits. -/
def loadNodesTry (resp : Response) (v : View) : Run View :=
  match resp with
  | Response.rejected message => { state := v, thrown := some message }
  | Response.badBody _ message => { state := v, thrown := some message }
  | Response.json ok data =>
    if ok then showInbounds data v
    else { state := v, thrown := some (jsOr data.error "加载失败") }

/-- The `catch` block of `loadNodes`. -/
def loadNodesCatch (message : String) (v : View) : View :=
  { v with
    consoleErrors := v.consoleErrors ++ ["加载节点失败: " ++ message]
    loadingIndicatorDisplay := "none"
    errorMessageDisplay := "flex"
    errorText := jsOr (some message) "加载节点信息失败" }

/-- The `finally` block of `loadNodes`. -/
def loadNodesFinally (v : View) : View :=
  { v with isLoading := false, refreshBtnDisabled := false }

/-- The continuation of `loadNodes` once the response is there: `try`,
`catch`, `finally`. -/
def loadNodesResume (resp : Response) (v : View) : Run View :=
  let r := loadNodesTry resp v
  match r.thrown with
  | none => { state := loadNodesFinally r.state, thrown := none }
  | some message => { state := loadNodesFinally (loadNodesCatch message r.state), thrown := none }

/-- A call of `loadNodes()` that is not interleaved with other handlers. -/
def loadNodes (resp : Response) (v : View) : Run View :=
  if v.isLoading then { state := v, thrown := none }
  else loadNodesResume resp (loadNodesBegin v)

/-- The oldest pending `setTimeout` callback of `loadNodes` runs, for the
engine's `unitIndex` of `formatBytes`. -/
def runTimer (unitIndex : Nat → Nat) (v : View) : View :=
  match v.timers with
  | [] => v
  | items :: rest =>
    { v with
      timers := rest
      nodesGrid := v.nodesGrid
        ++ items.map fun i => GridChild.card (createNodeCard unitIndex i)
      nodesGridOpacity := "1" }

/-- An idle node page before the first load. -/
def sampleView : View :=
  { isLoading := false
    loadingIndicatorDisplay := "none"
    errorMessageDisplay := "none"
    errorText := ""
    nodesGrid := []
    nodesGridOpacity := "1"
    refreshBtnDisabled := false
    packageInfo := some ("", "none")
    requests := []
    consoleErrors := []
    timers := [] }

/-- The outcomes that `loadNodes` treats as failures: a rejected `fetch`, a
body that does not parse, and a parsed body of a response whose `ok` flag is
not set. -/
def isFailure : Response → Bool
  | Response.rejected _ => true
  | Response.badBody _ _ => true
  | Response.json ok _ => !ok

/-- Message of the error that reaches the `catch` block for a failure: the
message of the rejection, or the message of the `Error` that `loadNodes`
raises itself for a response whose `ok` flag is not set. -/
def failureMessage : Response → String
  | Response.rejected message => message
  | Response.badBody _ message => message
  | Response.json _ data =>
    match data.error with
    | some e => if e = "" then "加载失败" else e
    | none => "加载失败"

end Nodes

namespace Password

/-! ## `change-password.js`: the strength meter -/

/-- The test `/[a-zA-Z]/.test(password)`. -/
def hasLetter (password : String) : Bool :=
  password.data.any fun c => ('a' ≤ c && c ≤ 'z') || ('A' ≤ c && c ≤ 'Z')

/-- The test `/[0-9]/.test(password)`. -/
def hasDigit (password : String) : Bool :=
  password.data.any fun c => '0' ≤ c && c ≤ '9'

/-- The test `/[!@#$%^&*]/.test(password)`. -/
def hasSymbol (password : String) : Bool :=
  password.data.any fun c => "!@#$%^&*".data.contains c

/-- What the `input` handler of `#new_password` writes: the score, the width
of the bar in percent, its colour, the label with its colour, and the `met`
marks of the three requirements. -/
structure Meter where
  strength : Nat
  widthPercent : ℚ
  background : String
  text : String
  color : String
  reqLength : Bool
  reqLetter : Bool
  reqNumber : Bool
deriving Repr, DecidableEq

/-- The `input` handler of `#new_password`. The quotient `strength / 5 * 100`
is the rational number; on the six possible scores the floating-point result
is the same integer. -/
def onInput (password : String) : Meter :=
  let s0 : Nat := 0
  let s1 : Nat := if jsLength password ≥ 6 then s0 + 1 else s0
  let s2 : Nat := if hasLetter password then s1 + 1 else s1
  let s3 : Nat := if hasDigit password then s2 + 1 else s2
  let s4 : Nat := if jsLength password ≥ 10 then s3 + 1 else s3
  let strength : Nat := if hasSymbol password then s4 + 1 else s4
  let percentage : ℚ := (strength : ℚ) / 5 * 100
  if strength ≤ 1 then
    { strength := strength, widthPercent := percentage, background := "#dc3545"
      text := "弱", color := "#dc3545"
      reqLength := decide (jsLength password ≥ 6), reqLetter := hasLetter password
      reqNumber := hasDigit password }
  else if strength ≤ 3 then
    { strength := strength, widthPercent := percentage, background := "#ffc107"
      text := "中等", color := "#ffc107"
      reqLength := decide (jsLength password ≥ 6), reqLetter := hasLetter password
      reqNumber := hasDigit password }
  else
    { strength := strength, widthPercent := percentage, background := "#28a745"
      text := "强", color := "#28a745"
      reqLength := decide (jsLength password ≥ 6), reqLetter := hasLetter password
      reqNumber := hasDigit password }

/-- The five criteria of the meter, as truth values: at least 6 code units, a
letter `a` to `z` or `A` to `Z`, a digit `0` to `9`, at least 10 code units,
and one of the eight symbols. -/
def criteria (password : String) : List Bool :=
  [decide (6 ≤ jsLength password),
   decide (∃ c ∈ password.data, ('a' ≤ c ∧ c ≤ 'z') ∨ ('A' ≤ c ∧ c ≤ 'Z')),
   decide (∃ c ∈ password.data, '0' ≤ c ∧ c ≤ '9'),
   decide (10 ≤ jsLength password),
   decide (∃ c ∈ password.data, c ∈ ['!', '@', '#', '$', '%', '^', '&', '*'])]

/-- Number of criteria that a password satisfies. -/
def criteriaMet (password : String) : Nat := (criteria password).count true

end Password

namespace Index

/-! ## `index.js`: copying the subscription link -/

/-- What `navigator.clipboard.writeText` does for a call of `copySubscription`:
the capability is missing, or the promise resolves, or it is rejected. -/
inductive AsyncWrite where
  | absent
  | resolved
  | rejected (message : String)
deriving Repr, DecidableEq

/-- What `document.execCommand('copy')` does: it copies the selection and
returns `true`, or it copies nothing and returns `false`, or it raises. -/
inductive LegacyCopy where
  | succeeds
  | reportsFailure
  | throws (message : String)
deriving Repr, DecidableEq

/-- A dialog shown to the user. -/
inductive Notice where
  /-- The call `alert(text)`. -/
  | alert (text : String)
  /-- The call `prompt(text, value)`. -/
  | prompt (text : String) (value : String)
deriving Repr, DecidableEq

/-- State of the home page: the value of `#subscription_url`, the content of
the clipboard, the values of the text areas that `fallbackCopy` has attached
to the body, and the dialogs shown so far, oldest first. -/
structure Home where
  subscriptionUrl : String
  clipboard : String
  textAreas : List String
  notices : List Notice
deriving Repr, DecidableEq

/-- Text of the alert that reports a copy. -/
def copiedText : String := "订阅链接已复制到剪贴板！"

/-- The function `fallbackCopy(text)`. The value that `execCommand` returns is
not read by the function. -/
def fallbackCopy (legacy : LegacyCopy) (text : String) (h : Home) : Home :=
  let h1 : Home := { h with textAreas := h.textAreas ++ [text] }
  let h2 : Home :=
    match legacy with
    | LegacyCopy.succeeds =>
      { h1 with clipboard := text, notices := h1.notices ++ [Notice.alert copiedText] }
    | LegacyCopy.reportsFailure =>
      { h1 with notices := h1.notices ++ [Notice.alert copiedText] }
    | LegacyCopy.throws _ =>
      { h1 with notices := h1.notices ++ [Notice.prompt "请手动复制订阅链接：" text] }
  { h2 with textAreas := h2.textAreas.dropLast }

/-- The function `copySubscription()` together with the reactions of its
promise chain. -/
def copySubscription (async : AsyncWrite) (legacy : LegacyCopy) (h : Home) : Home :=
  let url := h.subscriptionUrl
  match async with
  | AsyncWrite.absent => fallbackCopy legacy url h
  | AsyncWrite.resolved =>
    { h with clipboard := url, notices := h.notices ++ [Notice.alert copiedText] }
  | AsyncWrite.rejected _ => fallbackCopy legacy url h

/-- The copy reached the clipboard: the async write resolved, or it did not
and the legacy command copied. -/
def copied (async : AsyncWrite) (legacy : LegacyCopy) : Bool :=
  match async, legacy with
  | AsyncWrite.resolved, _ => true
  | _, LegacyCopy.succeeds => true
  | _, _ => false

/-- A home page with a subscription link and something else in the clipboard. -/
def sampleHome : Home :=
  { subscriptionUrl := "https://example.org/sub/abc"
    clipboard := "old"
    textAreas := []
    notices := [] }

end Index

end SubBoard

/-! # Properties -/

namespace SubBoard

theorem jsGet_jsSet_same {α : Type} (o : JsObject α) (k : String) (v : α) :
    jsGet (jsSet o k v) k = some v := by
  induction o with
  | nil => simp [jsSet, jsGet]
  | cons hd tl ih =>
    obtain ⟨k', w⟩ := hd
    by_cases h : k' = k
    · simp [jsSet, jsGet, h]
    · simp [jsSet, jsGet, h, ih]

theorem jsGet_jsSet_other {α : Type} (o : JsObject α) (k k' : String) (v : α)
    (h : k ≠ k') : jsGet (jsSet o k v) k' = jsGet o k' := by
  induction o with
  | nil => simp [jsSet, jsGet, h]
  | cons hd tl ih =>
    obtain ⟨k0, w⟩ := hd
    by_cases h0 : k0 = k
    · subst h0
      simp [jsSet, jsGet, h]
    · by_cases h1 : k0 = k'
      · subst h1
        simp [jsSet, jsGet, h0]
      · simp [jsSet, jsGet, h0, h1, ih]

namespace Packages

theorem setPanelBody_frame (elemId : String) (body : PanelBody) (p : Page) :
    (setPanelBody elemId body p).state.requests = p.requests ∧
    (setPanelBody elemId body p).state.nodesCache = p.nodesCache ∧
    (setPanelBody elemId body p).state.loadedServers = p.loadedServers ∧
    (setPanelBody elemId body p).state.alerts = p.alerts ∧
    (setPanelBody elemId body p).state.refreshBtn = p.refreshBtn ∧
    (setPanelBody elemId body p).state.serversData = p.serversData := by
  unfold setPanelBody
  cases jsGet p.panels elemId <;> simp

theorem loadNodesCatch_frame (elemId message : String) (p : Page) :
    (loadNodesCatch elemId message p).state.requests = p.requests ∧
    (loadNodesCatch elemId message p).state.nodesCache = p.nodesCache ∧
    (loadNodesCatch elemId message p).state.loadedServers = p.loadedServers ∧
    (loadNodesCatch elemId message p).state.alerts = p.alerts ∧
    (loadNodesCatch elemId message p).state.refreshBtn = p.refreshBtn ∧
    (loadNodesCatch elemId message p).state.serversData = p.serversData := by
  unfold loadNodesCatch
  exact setPanelBody_frame _ _ _

theorem tryWritePanel_frame (elemId : String) (body : PanelBody) (p : Page) :
    (tryWritePanel elemId body p).state.requests = p.requests ∧
    (tryWritePanel elemId body p).state.nodesCache = p.nodesCache ∧
    (tryWritePanel elemId body p).state.loadedServers = p.loadedServers ∧
    (tryWritePanel elemId body p).state.alerts = p.alerts ∧
    (tryWritePanel elemId body p).state.refreshBtn = p.refreshBtn ∧
    (tryWritePanel elemId body p).state.serversData = p.serversData := by
  simp only [tryWritePanel]
  split
  · exact setPanelBody_frame _ _ _
  · simp [loadNodesCatch_frame, setPanelBody_frame]

theorem cacheNodes_frame (boardName : String) (nodes : List NodeRec) (p : Page) :
    (cacheNodes boardName nodes p).requests = p.requests ∧
    (cacheNodes boardName nodes p).panels = p.panels ∧
    (cacheNodes boardName nodes p).loadedServers = p.loadedServers ∧
    (cacheNodes boardName nodes p).alerts = p.alerts ∧
    (cacheNodes boardName nodes p).refreshBtn = p.refreshBtn ∧
    (cacheNodes boardName nodes p).serversData = p.serversData := by
  unfold cacheNodes
  split
  · simp
  · split <;> simp

/-- Every call of `loadNodes` appends exactly one request to the log and leaves
`loadedServers`, the alerts, the refresh button and the server list alone. -/
theorem loadNodes_frame (srv : Backend) (formType boardName : String) (p : Page) :
    (loadNodes srv formType boardName p).state.requests
      = p.requests ++ [getNodesUrl boardName] ∧
    (loadNodes srv formType boardName p).state.loadedServers = p.loadedServers ∧
    (loadNodes srv formType boardName p).state.alerts = p.alerts ∧
    (loadNodes srv formType boardName p).state.refreshBtn = p.refreshBtn ∧
    (loadNodes srv formType boardName p).state.serversData = p.serversData := by
  unfold loadNodes
  rcases srv.getNodes p.requests.length boardName with m | m | data
  · simp [loadNodesCatch_frame]
  · simp [loadNodesCatch_frame]
  · obtain ⟨success, nodes⟩ := data
    cases success <;> rcases nodes with _ | (_ | ⟨n, ns⟩) <;>
      simp [tryWritePanel_frame, cacheNodes_frame]

/-- A call of `loadNodes` for a server that already has an entry in
`nodesCache` leaves the whole cache as it was. -/
theorem loadNodes_keeps_cached (srv : Backend) (formType boardName : String) (p : Page)
    (nodes : List NodeRec) (h : jsGet p.nodesCache boardName = some nodes) :
    (loadNodes srv formType boardName p).state.nodesCache = p.nodesCache := by
  unfold loadNodes
  rcases srv.getNodes p.requests.length boardName with m | m | data
  · simp [loadNodesCatch_frame]
  · simp [loadNodesCatch_frame]
  · obtain ⟨success, ns⟩ := data
    cases success <;> rcases ns with _ | (_ | ⟨n, ns⟩) <;>
      simp [tryWritePanel_frame, cacheNodes, h]

/-- Writing the content of a panel keeps every panel in the document. -/
theorem setPanelBody_panel_isSome (elemId : String) (body : PanelBody) (p : Page)
    (k : String) (h : (jsGet p.panels k).isSome) :
    (jsGet (setPanelBody elemId body p).state.panels k).isSome := by
  unfold setPanelBody
  cases hp : jsGet p.panels elemId with
  | none => simpa using h
  | some panel =>
    by_cases hk : elemId = k
    · subst hk
      simp [jsGet_jsSet_same]
    · simpa [jsGet_jsSet_other _ _ _ _ hk] using h

theorem setPanelBody_thrown (elemId : String) (body : PanelBody) (p : Page)
    (h : (jsGet p.panels elemId).isSome) :
    (setPanelBody elemId body p).thrown = none := by
  unfold setPanelBody
  cases hp : jsGet p.panels elemId with
  | none => simp [hp] at h
  | some panel => rfl

theorem tryWritePanel_thrown (elemId : String) (body : PanelBody) (p : Page)
    (h : (jsGet p.panels elemId).isSome) :
    (tryWritePanel elemId body p).thrown = none := by
  simp only [tryWritePanel]
  rw [setPanelBody_thrown _ _ _ h]
  exact setPanelBody_thrown _ _ _ h

theorem tryWritePanel_panel_isSome (elemId : String) (body : PanelBody) (p : Page)
    (k : String) (h : (jsGet p.panels k).isSome) :
    (jsGet (tryWritePanel elemId body p).state.panels k).isSome := by
  simp only [tryWritePanel]
  split
  · exact setPanelBody_panel_isSome _ _ _ _ h
  · unfold loadNodesCatch
    exact setPanelBody_panel_isSome _ _ _ _
      (by simpa using setPanelBody_panel_isSome elemId body p k h)

/-- When the panel of the server is in the document `loadNodes` returns
normally. -/
theorem loadNodes_thrown (srv : Backend) (formType boardName : String) (p : Page)
    (h : (jsGet p.panels (panelId formType boardName)).isSome) :
    (loadNodes srv formType boardName p).thrown = none := by
  unfold loadNodes
  rcases srv.getNodes p.requests.length boardName with m | m | data
  · exact setPanelBody_thrown _ _ _ (by simpa using h)
  · exact setPanelBody_thrown _ _ _ (by simpa using h)
  · obtain ⟨success, ns⟩ := data
    cases success <;> rcases ns with _ | (_ | ⟨n, ns⟩) <;> simp only [] <;>
      exact tryWritePanel_thrown _ _ _ (by simpa [cacheNodes_frame] using h)

/-- A call of `loadNodes` removes no panel from the document. -/
theorem loadNodes_panel_isSome (srv : Backend) (formType boardName : String) (p : Page)
    (k : String) (h : (jsGet p.panels k).isSome) :
    (jsGet (loadNodes srv formType boardName p).state.panels k).isSome := by
  unfold loadNodes
  rcases srv.getNodes p.requests.length boardName with m | m | data
  · exact setPanelBody_panel_isSome _ _ _ _ (by simpa using h)
  · exact setPanelBody_panel_isSome _ _ _ _ (by simpa using h)
  · obtain ⟨success, ns⟩ := data
    cases success <;> rcases ns with _ | (_ | ⟨n, ns⟩) <;> simp only [] <;>
      exact tryWritePanel_panel_isSome _ _ _ _ (by simpa [cacheNodes_frame] using h)

theorem markLoaded_get (formType boardName : String) (p : Page) (k : String) :
    jsGet (markLoaded formType boardName p).loadedServers k
      = if loadedKey formType boardName = k then some true else jsGet p.loadedServers k := by
  unfold markLoaded
  by_cases h : loadedKey formType boardName = k
  · subst h
    simp [jsGet_jsSet_same]
  · simp [h, jsGet_jsSet_other _ _ _ _ h]

/-- The reload loop of `refreshAllNodes`, when the panel of every server is in
the document: it returns normally, issues one request per server in order, and
leaves every one of them marked as loaded. -/
theorem reloadAll_spec (srv : Backend) (formType : String) :
    ∀ (servers : List String) (p : Page),
      (∀ b ∈ servers, (jsGet p.panels (panelId formType b)).isSome) →
      (reloadAll srv formType servers p).thrown = none ∧
      (reloadAll srv formType servers p).state.requests
        = p.requests ++ servers.map getNodesUrl ∧
      (reloadAll srv formType servers p).state.alerts = p.alerts ∧
      (∀ k, jsGet p.loadedServers k = some true →
        jsGet (reloadAll srv formType servers p).state.loadedServers k = some true) ∧
      (∀ b ∈ servers,
        jsGet (reloadAll srv formType servers p).state.loadedServers
          (loadedKey formType b) = some true) ∧
      (∀ k, (jsGet p.panels k).isSome →
        (jsGet (reloadAll srv formType servers p).state.panels k).isSome) := by
  intro servers
  induction servers with
  | nil =>
    intro p _
    simp [reloadAll]
  | cons b rest ih =>
    intro p hp
    have hb := loadNodes_thrown srv formType b p (hp b (by simp))
    have hf := loadNodes_frame srv formType b p
    have hrest : ∀ c ∈ rest, (jsGet (markLoaded formType b
        (loadNodes srv formType b p).state).panels (panelId formType c)).isSome := by
      intro c hc
      exact loadNodes_panel_isSome srv formType b p _ (hp c (by simp [hc]))
    obtain ⟨h1, h2, h3, h4, h5, h6⟩ := ih _ hrest
    have hstep : reloadAll srv formType (b :: rest) p
        = reloadAll srv formType rest (markLoaded formType b (loadNodes srv formType b p).state) := by
      simp only [reloadAll, hb]
    rw [hstep]
    refine ⟨h1, ?_, ?_, ?_, ?_, ?_⟩
    · rw [h2]
      simp [markLoaded, hf.1]
    · rw [h3]
      simp [markLoaded, hf.2.2.1]
    · intro k hk
      apply h4
      rw [markLoaded_get]
      split
      · rfl
      · rw [hf.2.1]
        exact hk
    · intro c hc
      rcases List.mem_cons.mp hc with rfl | hc
      · apply h4
        rw [markLoaded_get]
        simp
      · exact h5 c hc
    · intro k hk
      exact h6 k (loadNodes_panel_isSome srv formType b p k hk)

theorem showPanel_frame (elemId : String) (panel : Panel) (display icon : String) (p : Page) :
    (showPanel elemId panel display icon p).state.requests = p.requests ∧
    (showPanel elemId panel display icon p).state.loadedServers = p.loadedServers ∧
    (showPanel elemId panel display icon p).state.nodesCache = p.nodesCache := by
  unfold showPanel
  cases panel.toggleIcon <;> simp

/-- A toggle for a server whose key is marked in `loadedServers` issues no
request, whatever the state of its panel. -/
theorem toggleServerNodes_loaded_no_fetch (srv : Backend) (formType boardName : String)
    (p : Page) (h : jsGet p.loadedServers (loadedKey formType boardName) = some true) :
    (toggleServerNodes srv formType boardName p).state.requests = p.requests := by
  simp only [toggleServerNodes]
  cases hp : jsGet p.panels (panelId formType boardName) with
  | none => rfl
  | some panel =>
    simp only []
    by_cases hg : panel.hasServerGroup = true
    · by_cases hd : panel.display = "none"
      · simp only [hg, hd, Bool.not_true, Bool.false_eq_true, if_false, if_true]
        cases ht : (showPanel (panelId formType boardName) panel "block" "▲" p).thrown with
        | some m => simp [showPanel_frame]
        | none => simp [loadIfNeeded, showPanel_frame, h, jsTruthy]
      · simp [hg, hd, showPanel_frame]
    · simp [hg]

/-- A toggle on a hidden panel that sits in a server group with a toggle icon
reveals it. -/
theorem toggleServerNodes_expands (srv : Backend) (formType boardName : String)
    (p : Page) (panel : Panel) (icon : String)
    (hpanel : jsGet p.panels (panelId formType boardName) = some panel)
    (hhidden : panel.display = "none") (hgroup : panel.hasServerGroup = true)
    (hicon : panel.toggleIcon = some icon)
    (h : jsGet p.loadedServers (loadedKey formType boardName) = some true) :
    (toggleServerNodes srv formType boardName p).thrown = none ∧
    jsGet (toggleServerNodes srv formType boardName p).state.panels
        (panelId formType boardName)
      = some { panel with display := "block", toggleIcon := some "▲" } := by
  simp [toggleServerNodes, hpanel, hhidden, hgroup, showPanel, hicon, loadIfNeeded,
    jsTruthy, h, jsGet_jsSet_same]

/-- C1 (as amended): every call of the package-form `loadNodes` issues exactly
one request for the node list of the server, whatever `nodesCache` holds, so
two calls in succession issue two; the cache is written only and a call never
changes the entry of a server that already has one. -/
theorem C1_loadNodes_fetches_every_call (srv : Backend) (formType boardName : String)
    (p : Page) :
    (loadNodes srv formType boardName p).state.requests
      = p.requests ++ [getNodesUrl boardName] ∧
    (loadNodes srv formType boardName
        (loadNodes srv formType boardName p).state).state.requests
      = p.requests ++ [getNodesUrl boardName, getNodesUrl boardName] ∧
    nodeFetches boardName
        (loadNodes srv formType boardName
          (loadNodes srv formType boardName p).state).state
      = nodeFetches boardName p + 2 ∧
    ((jsGet (loadNodes srv formType boardName p).state.nodesCache boardName).isSome →
      (loadNodes srv formType boardName
          (loadNodes srv formType boardName p).state).state.nodesCache
        = (loadNodes srv formType boardName p).state.nodesCache) := by
  have h2 : (loadNodes srv formType boardName
        (loadNodes srv formType boardName p).state).state.requests
      = p.requests ++ [getNodesUrl boardName, getNodesUrl boardName] := by
    rw [(loadNodes_frame srv formType boardName _).1, (loadNodes_frame srv formType boardName p).1]
    simp
  refine ⟨(loadNodes_frame srv formType boardName p).1, h2, ?_, ?_⟩
  · simp [nodeFetches, h2]
  · intro h
    obtain ⟨nodes, hn⟩ := Option.isSome_iff_exists.mp h
    exact loadNodes_keeps_cached srv formType boardName _ nodes hn

/-- C1, instance of the amended statement on the sample page: both calls for
`srv1` reach the backend although the first one filled the cache. -/
theorem C1_loadNodes_fetches_every_call_witness :
    (jsGet (loadNodes sampleBackend "add" "srv1" samplePage).state.nodesCache "srv1").isSome ∧
    (loadNodes sampleBackend "add" "srv1"
        (loadNodes sampleBackend "add" "srv1" samplePage).state).state.nodesCache
      = (loadNodes sampleBackend "add" "srv1" samplePage).state.nodesCache :=
  ⟨by decide,
   (C1_loadNodes_fetches_every_call sampleBackend "add" "srv1" samplePage).2.2.2 (by decide)⟩

/-- C1 (counterexample): on the sample page the first `loadNodes("add", "srv1")`
stores the node list of `srv1` in `nodesCache`, and the second call still
issues a request: the log holds two requests for `srv1`, not one. -/
theorem C1_second_call_fetches_again :
    nodeFetches "srv1" samplePage = 0 ∧
    jsGet (loadNodes sampleBackend "add" "srv1" samplePage).state.nodesCache "srv1"
      = some [⟨5, "hk"⟩, ⟨7, "jp"⟩] ∧
    nodeFetches "srv1" (loadNodes sampleBackend "add" "srv1" samplePage).state = 1 ∧
    nodeFetches "srv1"
      (loadNodes sampleBackend "add" "srv1"
        (loadNodes sampleBackend "add" "srv1" samplePage).state).state = 2 ∧
    ¬ nodeFetches "srv1"
        (loadNodes sampleBackend "add" "srv1"
          (loadNodes sampleBackend "add" "srv1" samplePage).state).state
      ≤ nodeFetches "srv1" samplePage + 1 := by
  decide

/-- When the backend reports success and the panel of every listed server is
in the document, `refreshAllNodes(formType)` itself fetches
the node list of every server once, in list order, shows no alert, and leaves
every server marked as loaded for that form; hence a following
`toggleServerNodes(formType, boardName)` issues no request, also when it
reveals the hidden panel of the server. -/
theorem refreshAllNodes_success_effect (srv : Backend) (formType : String) (p : Page)
    (data : RefreshData)
    (hreply : srv.refreshNodes p.requests.length = Reply.json data)
    (hsuccess : data.success = true)
    (hpanels : ∀ b ∈ p.serversData, (jsGet p.panels (panelId formType b)).isSome) :
    (refreshAllNodes srv formType p).thrown = none ∧
    (refreshAllNodes srv formType p).state.alerts = p.alerts ∧
    (refreshAllNodes srv formType p).state.requests
      = p.requests ++ refreshUrl :: p.serversData.map getNodesUrl ∧
    ∀ b ∈ p.serversData,
      jsGet (refreshAllNodes srv formType p).state.loadedServers (loadedKey formType b)
        = some true ∧
      (toggleServerNodes srv formType b (refreshAllNodes srv formType p).state).state.requests
        = (refreshAllNodes srv formType p).state.requests ∧
      ∀ (panel : Panel) (icon : String),
        jsGet (refreshAllNodes srv formType p).state.panels (panelId formType b) = some panel →
        panel.display = "none" → panel.hasServerGroup = true →
        panel.toggleIcon = some icon →
        (toggleServerNodes srv formType b (refreshAllNodes srv formType p).state).thrown = none ∧
        jsGet (toggleServerNodes srv formType b
            (refreshAllNodes srv formType p).state).state.panels (panelId formType b)
          = some { panel with display := "block", toggleIcon := some "▲" } := by
  obtain ⟨h1, h2, h3, _, h5, _⟩ := reloadAll_spec srv formType p.serversData
    { p with
      refreshBtn := { disabled := true, innerHTML := spinnerHTML }
      requests := p.requests ++ [refreshUrl]
      nodesCache := clearCache p.nodesCache
      loadedServers := clearLoaded formType p.loadedServers } hpanels
  have hstate : (refreshAllNodes srv formType p).state
      = { (reloadAll srv formType p.serversData
            { p with
              refreshBtn := { disabled := true, innerHTML := spinnerHTML }
              requests := p.requests ++ [refreshUrl]
              nodesCache := clearCache p.nodesCache
              loadedServers := clearLoaded formType p.loadedServers }).state with
          refreshBtn := { disabled := false, innerHTML := p.refreshBtn.innerHTML } } := by
    simp only [refreshAllNodes, refreshAllNodesTry, hreply, hsuccess, if_true, h1]
  have hloaded : ∀ b ∈ p.serversData,
      jsGet (refreshAllNodes srv formType p).state.loadedServers (loadedKey formType b)
        = some true := by
    intro b hb
    rw [hstate]
    exact h5 b hb
  refine ⟨rfl, ?_, ?_, ?_⟩
  · rw [hstate]
    exact h3
  · rw [hstate]
    simpa using h2
  · intro b hb
    refine ⟨hloaded b hb, toggleServerNodes_loaded_no_fetch srv formType b _ (hloaded b hb), ?_⟩
    intro panel icon hpanel hhidden hgroup hicon
    exact toggleServerNodes_expands srv formType b _ panel icon hpanel hhidden hgroup hicon
      (hloaded b hb)

/-- Refresh of the add form of the sample page, then a toggle of `srv1`. -/
theorem refreshAllNodes_success_effect_sample :
    (refreshAllNodes sampleBackend "add" samplePage).state.requests
      = ["/packages/refresh_nodes", "/packages/get_nodes/srv1", "/packages/get_nodes/srv2"] ∧
    jsGet (refreshAllNodes sampleBackend "add" samplePage).state.loadedServers "add_srv1"
      = some true ∧
    (toggleServerNodes sampleBackend "add" "srv1"
        (refreshAllNodes sampleBackend "add" samplePage).state).state.requests
      = (refreshAllNodes sampleBackend "add" samplePage).state.requests :=
  have h := refreshAllNodes_success_effect sampleBackend "add" samplePage
    { success := true, message := none } rfl rfl (by decide)
  ⟨h.2.2.1, (h.2.2.2 "srv1" (by decide)).1, (h.2.2.2 "srv1" (by decide)).2.1⟩

/-- C2 (failing input): after a successful `refreshAllNodes("add")` on the
sample page, where both panels of the add form are hidden, the key `add_srv1`
is marked as loaded and the panel of `srv1` is still hidden; the following
toggle reveals the panel and issues no request. -/
theorem C2_toggle_after_refresh_does_not_fetch :
    jsGet (refreshAllNodes sampleBackend "add" samplePage).state.loadedServers "add_srv1"
      = some true ∧
    (jsGet (refreshAllNodes sampleBackend "add" samplePage).state.panels
        "add_nodes_srv1").map Panel.display = some "none" ∧
    (jsGet (toggleServerNodes sampleBackend "add" "srv1"
        (refreshAllNodes sampleBackend "add" samplePage).state).state.panels
        "add_nodes_srv1").map Panel.display = some "block" ∧
    nodeFetches "srv1" (refreshAllNodes sampleBackend "add" samplePage).state = 1 ∧
    nodeFetches "srv1" (toggleServerNodes sampleBackend "add" "srv1"
        (refreshAllNodes sampleBackend "add" samplePage).state).state = 1 := by
  decide

/-! ### Splitting and number parsing -/

theorem splitChars_ne_nil (sep : Char) (l : List Char) : splitChars sep l ≠ [] := by
  cases l with
  | nil => simp [splitChars]
  | cons c cs =>
    simp only [splitChars]
    split
    · simp
    · split <;> simp

/-- A list without the separator is a single piece. -/
theorem splitChars_of_not_mem (sep : Char) (l : List Char) (h : sep ∉ l) :
    splitChars sep l = [l] := by
  induction l with
  | nil => rfl
  | cons c cs ih =>
    have hc : c ≠ sep := fun e => h (by simp [e])
    have hcs : sep ∉ cs := fun e => h (by simp [e])
    simp [splitChars, hc, ih hcs]

/-- The first piece of a list ends at the first separator. -/
theorem splitChars_append (sep : Char) (l rest : List Char) (h : sep ∉ l) :
    splitChars sep (l ++ sep :: rest) = l :: splitChars sep rest := by
  induction l with
  | nil => simp [splitChars]
  | cons c cs ih =>
    have hc : c ≠ sep := fun e => h (by simp [e])
    have hcs : sep ∉ cs := fun e => h (by simp [e])
    simp [splitChars, hc, ih hcs]

theorem digitChar_spec (d : Nat) (h : d < 10) :
    digitValue 10 (digitChar d) = some d ∧ digitChar d ≠ '|' ∧ digitChar d ≠ '-' ∧
    digitChar d ≠ '+' ∧ digitChar d ≠ 'x' ∧ digitChar d ≠ 'X' ∧
    isJsWhiteSpace (digitChar d) = false := by
  interval_cases d <;> decide

theorem natDigitsAux_digits (fuel n : Nat) :
    ∀ c ∈ natDigitsAux fuel n, isDecimalDigit c := by
  induction fuel generalizing n with
  | zero => simp [natDigitsAux]
  | succ fuel ih =>
    intro c hc
    simp only [natDigitsAux] at hc
    split at hc
    · rename_i hn
      simp only [List.mem_singleton] at hc
      exact ⟨n, hn, hc⟩
    · rcases List.mem_append.mp hc with hc | hc
      · exact ih _ c hc
      · simp only [List.mem_singleton] at hc
        exact ⟨n % 10, Nat.mod_lt _ (by decide), hc⟩

theorem natDigitsAux_ne_nil (fuel n : Nat) : natDigitsAux (fuel + 1) n ≠ [] := by
  simp only [natDigitsAux]
  split <;> simp

/-- Reading back the decimal digits of `n` gives `n`. -/
theorem readDigits_natDigitsAux (fuel n : Nat) (h : n < fuel) (rest : List Char) :
    readDigits 10 none (natDigitsAux fuel n ++ rest) = readDigits 10 (some n) rest := by
  induction fuel generalizing n rest with
  | zero => omega
  | succ fuel ih =>
    simp only [natDigitsAux]
    split
    · rename_i hn
      simp [readDigits, (digitChar_spec n hn).1]
    · rename_i hn
      have hlt : n / 10 < fuel := by omega
      rw [List.append_assoc, ih (n / 10) hlt]
      simp only [List.singleton_append, readDigits,
        (digitChar_spec (n % 10) (Nat.mod_lt _ (by decide))).1, Option.getD_some]
      congr 2
      omega

theorem parseMagnitude_decimal (l : List Char) (h : ∀ c ∈ l, isDecimalDigit c) :
    parseMagnitude l = readDigits 10 none l := by
  unfold parseMagnitude
  split
  · exfalso
    obtain ⟨d, hd, he⟩ := h 'x' (by simp)
    exact (digitChar_spec d hd).2.2.2.2.1 he.symm
  · exfalso
    obtain ⟨d, hd, he⟩ := h 'X' (by simp)
    exact (digitChar_spec d hd).2.2.2.2.2.1 he.symm
  · rfl

theorem parseMagnitude_natDigits (n : Nat) :
    parseMagnitude (natDigits n) = some n := by
  unfold natDigits
  rw [parseMagnitude_decimal _ (natDigitsAux_digits _ _)]
  have := readDigits_natDigitsAux (n + 1) n (by omega) []
  simpa [natDigits, readDigits] using this

theorem toNumber_of_lt (n : Nat) (h : n < 2 ^ 53) : toNumber n = some n := by
  unfold toNumber
  rw [if_pos h]

/-- The text of an integer below `2 ^ 53` in absolute value, which a template
literal prints in plain decimal, is read back by `parseInt`. -/
theorem parseInt_jsIntToString (n : Int) (hsafe : n.natAbs < 2 ^ 53) :
    parseInt (jsIntToString n) = some n := by
  cases n with
  | ofNat m =>
    have hm53 : m < 2 ^ 53 := by simpa using hsafe
    have hne : natDigits m ≠ [] := natDigitsAux_ne_nil _ _
    have hd := natDigitsAux_digits (m + 1) m
    cases hl : natDigits m with
    | nil => exact absurd hl hne
    | cons c cs =>
      have hc : isDecimalDigit c := hd c (by simp [natDigits] at hl; simp [hl])
      obtain ⟨d, hd10, rfl⟩ := hc
      have hs := digitChar_spec d hd10
      have hm := parseMagnitude_natDigits m
      rw [hl] at hm
      simp only [parseInt, jsIntToString, hl, List.dropWhile, hs.2.2.2.2.2.2]
      split
      · rename_i heq
        simp only [List.cons.injEq] at heq
        exact absurd heq.1 hs.2.2.1
      · rename_i heq
        simp only [List.cons.injEq] at heq
        exact absurd heq.1 hs.2.2.2.1
      · simp [hm, toNumber_of_lt m hm53]
  | negSucc m =>
    have hm53 : m + 1 < 2 ^ 53 := by simpa [Int.natAbs] using hsafe
    have hm := parseMagnitude_natDigits (m + 1)
    have hw : isJsWhiteSpace '-' = false := by decide
    simp only [parseInt, jsIntToString, List.dropWhile, hw, hm, Option.some_bind,
      toNumber_of_lt _ hm53, Option.map_some']
    rfl

theorem jsIntToString_no_bar (n : Int) : '|' ∉ (jsIntToString n).data := by
  have key : ∀ m, '|' ∉ natDigits m := by
    intro m hmem
    obtain ⟨d, hd, he⟩ := natDigitsAux_digits _ _ _ hmem
    exact (digitChar_spec d hd).2.1 he.symm
  cases n with
  | ofNat m => exact key m
  | negSucc m =>
    simp only [jsIntToString, List.mem_cons, not_or]
    exact ⟨by decide, key _⟩

/-! ### Reconciliation of the edit form -/

theorem setChecked_append (l1 l2 : List NodeRow) (r : NodeRow) :
    setChecked l1.length (l1 ++ r :: l2) = l1 ++ { r with checked := true } :: l2 := by
  induction l1 with
  | nil => rfl
  | cons x xs ih => simp [setChecked, ih]

theorem setFirstRate_append (name rate : String) (l1 l2 : List NodeRow) (r : NodeRow)
    (h1 : ∀ x ∈ l1, x.rateName ≠ name) (hr : r.rateName = name) :
    setFirstRate name rate (l1 ++ r :: l2) = l1 ++ { r with rateValue := rate } :: l2 := by
  induction l1 with
  | nil => simp [setFirstRate, hr]
  | cons x xs ih =>
    have hx : x.rateName ≠ name := h1 x (by simp)
    have hxs : ∀ y ∈ xs, y.rateName ≠ name := fun y hy => h1 y (by simp [hy])
    simp [setFirstRate, hx, ih hxs]

theorem selectRow_rateName (node : Selection) (r : NodeRow) :
    (selectRow node r).rateName = r.rateName := by
  unfold selectRow
  split <;> rfl

theorem selectRow_value (node : Selection) (r : NodeRow) :
    (selectRow node r).value = r.value := by
  unfold selectRow
  split <;> rfl

/-- One step of the inner loop: the checkbox at the end of the visited part is
the only row that can change. -/
theorem visitCheckbox_append (node : Selection) (l1 l2 : List NodeRow) (r : NodeRow)
    (h1 : ∀ x ∈ l1, x.rateName ≠ r.rateName) (hr : WellNamed r) :
    visitCheckbox node l1.length (l1 ++ r :: l2) = l1 ++ selectRow node r :: l2 := by
  have hget : (l1 ++ r :: l2)[l1.length]? = some r := by
    rw [List.getElem?_append_right (le_refl _)]
    simp
  rcases hs : jsSplit r.value '|' with _ | ⟨b, _ | ⟨i, _ | ⟨n, _ | ⟨x, xs⟩⟩⟩⟩
  · simp [visitCheckbox, hget, selectRow, matchesRow, hs]
  · simp [visitCheckbox, hget, selectRow, matchesRow, hs]
  · simp [visitCheckbox, hget, selectRow, matchesRow, hs]
  · have hname := hr b i n hs
    by_cases hm : b = node.board_name ∧ parseInt i = some node.inbound_id
    · simp only [visitCheckbox, hget, hs, if_pos hm, setChecked_append]
      rw [setFirstRate_append _ _ _ _ _ (by simpa [hname] using h1) (by simpa using hname)]
      simp [selectRow, matchesRow, hs, hm]
    · simp [visitCheckbox, hget, selectRow, matchesRow, hs, hm]
  · simp [visitCheckbox, hget, selectRow, matchesRow, hs]

theorem foldl_visitCheckbox (node : Selection) :
    ∀ (l2 l1 : List NodeRow),
      ((l1 ++ l2).map NodeRow.rateName).Nodup → (∀ r ∈ l2, WellNamed r) →
      (List.range' l1.length l2.length).foldl (fun rs i => visitCheckbox node i rs) (l1 ++ l2)
        = l1 ++ l2.map (selectRow node) := by
  intro l2
  induction l2 with
  | nil => intro l1 _ _; simp
  | cons r rest ih =>
    intro l1 hnd hwn
    have hfresh : ∀ x ∈ l1, x.rateName ≠ r.rateName := by
      intro x hx he
      rw [List.map_append, List.map_cons] at hnd
      have := (List.nodup_append.mp hnd).2.2
      exact this (List.mem_map_of_mem _ hx) (by simp [he])
    have hstep := visitCheckbox_append node l1 rest r hfresh (hwn r (by simp))
    have hnd2 : (((l1 ++ [selectRow node r]) ++ rest).map NodeRow.rateName).Nodup := by
      simpa [selectRow_rateName] using hnd
    have hih := ih (l1 ++ [selectRow node r]) hnd2 (fun x hx => hwn x (by simp [hx]))
    simp only [List.length_cons, List.range'_succ, List.foldl_cons, hstep]
    simpa using hih

/-- One pass of the inner loop over rows with distinct rate names selects
exactly the rows that match the selection. -/
theorem restoreSelection_eq_map (node : Selection) (rows : List NodeRow)
    (hnd : (rows.map NodeRow.rateName).Nodup) (hwn : ∀ r ∈ rows, WellNamed r) :
    restoreSelection node rows = rows.map (selectRow node) := by
  have := foldl_visitCheckbox node rows [] (by simpa using hnd) hwn
  simpa [restoreSelection, List.range_eq_range'] using this

/-- The whole callback acts row by row. -/
theorem restoreSelections_eq_map (nodes : List Selection) :
    ∀ (rows : List NodeRow),
      (rows.map NodeRow.rateName).Nodup → (∀ r ∈ rows, WellNamed r) →
      restoreSelections nodes rows
        = rows.map (fun r => nodes.foldl (fun row s => selectRow s row) r) := by
  induction nodes with
  | nil => intro rows _ _; simp [restoreSelections]
  | cons s rest ih =>
    intro rows hnd hwn
    have hnd2 : ((rows.map (selectRow s)).map NodeRow.rateName).Nodup := by
      simpa [Function.comp_def, selectRow_rateName] using hnd
    have hwn2 : ∀ r ∈ rows.map (selectRow s), WellNamed r := by
      intro r hr
      obtain ⟨r0, hr0, rfl⟩ := List.mem_map.mp hr
      intro b i n hsplit
      rw [selectRow_rateName]
      rw [selectRow_value] at hsplit
      exact hwn r0 hr0 b i n hsplit
    have := ih (rows.map (selectRow s)) hnd2 hwn2
    simp only [restoreSelections, List.foldl_cons] at this ⊢
    rw [restoreSelection_eq_map s rows hnd hwn, this]
    simp [Function.comp_def]

/-- The value of a rendered checkbox splits into the board name, the text of
the id and the node name when neither name contains a bar. -/
theorem renderNode_split (boardName : String) (node : NodeRec)
    (hb : '|' ∉ boardName.data) (hn : '|' ∉ node.name.data) :
    jsSplit (renderNode boardName node).value '|'
      = [boardName, jsIntToString node.id, node.name] := by
  have hdata : (renderNode boardName node).value.data
      = boardName.data ++ '|' :: ((jsIntToString node.id).data ++ '|' :: node.name.data) := by
    simp [renderNode, String.data_append]
  simp only [jsSplit, hdata]
  rw [splitChars_append _ _ _ hb, splitChars_append _ _ _ (jsIntToString_no_bar node.id),
    splitChars_of_not_mem _ _ hn]
  rfl

theorem renderNode_wellNamed (boardName : String) (node : NodeRec)
    (hb : '|' ∉ boardName.data) (hn : '|' ∉ node.name.data) :
    WellNamed (renderNode boardName node) := by
  intro b i n hsplit
  rw [renderNode_split boardName node hb hn] at hsplit
  simp only [List.cons.injEq, and_true] at hsplit
  obtain ⟨rfl, _, rfl⟩ := hsplit
  rfl

/-- On a row that carries the value of a rendered checkbox, the test of the
reconciliation is the comparison of board name and id. -/
theorem matchesRow_rendered (s : Selection) (boardName : String) (node : NodeRec)
    (r : NodeRow) (hv : r.value = (renderNode boardName node).value)
    (hb : '|' ∉ boardName.data) (hn : '|' ∉ node.name.data)
    (hsafe : node.id.natAbs < 2 ^ 53) :
    matchesRow s r = decide (s.board_name = boardName ∧ s.inbound_id = node.id) := by
  simp only [matchesRow, hv, renderNode_split boardName node hb hn,
    parseInt_jsIntToString node.id hsafe, Option.some.injEq]
  by_cases h : s.board_name = boardName ∧ s.inbound_id = node.id
  · simp [h.1.symm, h.2.symm]
  · have h' : ¬ (boardName = s.board_name ∧ node.id = s.inbound_id) :=
      fun e => h ⟨e.1.symm, e.2.symm⟩
    simp [h, h']

theorem foldl_selectRow_rendered (boardName : String) (node : NodeRec)
    (hb : '|' ∉ boardName.data) (hn : '|' ∉ node.name.data)
    (hsafe : node.id.natAbs < 2 ^ 53) :
    ∀ (nodes : List Selection) (found : Option Selection),
      nodes.foldl (fun row s => selectRow s row)
          (match found with
            | some s => { renderNode boardName node with
                            checked := true, rateValue := s.traffic_rate }
            | none => renderNode boardName node)
        = match nodes.foldl (fun found s =>
              if s.board_name = boardName ∧ s.inbound_id = node.id then some s else found)
              found with
          | some s => { renderNode boardName node with
                          checked := true, rateValue := s.traffic_rate }
          | none => renderNode boardName node := by
  intro nodes
  induction nodes with
  | nil => intro found; rfl
  | cons s rest ih =>
    intro found
    simp only [List.foldl_cons]
    rw [← ih]
    congr 1
    have hm : ∀ r : NodeRow, r.value = (renderNode boardName node).value →
        selectRow s r = if s.board_name = boardName ∧ s.inbound_id = node.id
          then { r with checked := true, rateValue := s.traffic_rate } else r := by
      intro r hv
      simp only [selectRow, matchesRow_rendered s boardName node r hv hb hn hsafe,
        decide_eq_true_eq]
    cases found with
    | none =>
      rw [hm _ rfl]
      by_cases h : s.board_name = boardName ∧ s.inbound_id = node.id
      · simp only [if_pos h]
      · simp only [if_neg h]
    | some t =>
      simp only []
      rw [hm { renderNode boardName node with checked := true, rateValue := t.traffic_rate } rfl]
      by_cases h : s.board_name = boardName ∧ s.inbound_id = node.id
      · simp only [if_pos h]
      · simp only [if_neg h]

theorem lastSelection_spec (boardName : String) (id : Int) :
    ∀ (nodes : List Selection) (found : Option Selection),
      (∀ s, nodes.foldl (fun found s =>
            if s.board_name = boardName ∧ s.inbound_id = id then some s else found) found
          = some s →
        found = some s ∨ (s ∈ nodes ∧ s.board_name = boardName ∧ s.inbound_id = id)) ∧
      ((found.isSome ∨ ∃ s ∈ nodes, s.board_name = boardName ∧ s.inbound_id = id) →
        (nodes.foldl (fun found s =>
            if s.board_name = boardName ∧ s.inbound_id = id then some s else found)
          found).isSome) := by
  intro nodes
  induction nodes with
  | nil =>
    intro found
    simp
  | cons t rest ih =>
    intro found
    simp only [List.foldl_cons]
    obtain ⟨h1, h2⟩ := ih (if t.board_name = boardName ∧ t.inbound_id = id then some t else found)
    constructor
    · intro s hs
      rcases h1 s hs with h | h
      · by_cases ht : t.board_name = boardName ∧ t.inbound_id = id
        · rw [if_pos ht] at h
          simp only [Option.some.injEq] at h
          subst h
          exact Or.inr ⟨by simp, ht⟩
        · rw [if_neg ht] at h
          exact Or.inl h
      · exact Or.inr ⟨by simp [h.1], h.2⟩
    · intro h
      apply h2
      by_cases ht : t.board_name = boardName ∧ t.inbound_id = id
      · simp [ht]
      · rw [if_neg ht]
        rcases h with h | ⟨s, hs, hm⟩
        · exact Or.inl h
        · rcases List.mem_cons.mp hs with rfl | hs
          · exact absurd hm ht
          · exact Or.inr ⟨s, hs, hm⟩

theorem lastSelection_isSome_iff (nodes : List Selection) (boardName : String) (id : Int) :
    (lastSelection nodes boardName id).isSome
      ↔ ∃ s ∈ nodes, s.board_name = boardName ∧ s.inbound_id = id := by
  constructor
  · intro h
    obtain ⟨s, hs⟩ := Option.isSome_iff_exists.mp h
    rcases (lastSelection_spec boardName id nodes none).1 s hs with h0 | h0
    · exact absurd h0 (by simp)
    · exact ⟨s, h0⟩
  · intro h
    exact (lastSelection_spec boardName id nodes none).2 (Or.inr h)

theorem renderServers_wellNamed (servers : List (String × List NodeRec))
    (hbar : ∀ sn ∈ servers, '|' ∉ sn.1.data ∧ ∀ n ∈ sn.2, '|' ∉ n.name.data) :
    ∀ r ∈ renderServers servers, WellNamed r := by
  intro r hr
  simp only [renderServers, List.mem_flatMap, List.mem_map] at hr
  obtain ⟨sn, hsn, n, hn, rfl⟩ := hr
  exact renderNode_wellNamed sn.1 n (hbar sn hsn).1 ((hbar sn hsn).2 n hn)

/-- For the checkboxes that `loadNodes` renders for servers whose board names
and node names are plain and contain no bar, whose node ids are integers below
`2 ^ 53` in absolute value and whose rate inputs carry pairwise distinct
names, and for every list of selections, the reconciliation of `editPackage`
leaves every value in place and checks a checkbox if and only if some
selection has the board name and the id of its node, whatever the node name of
the selection; the rate input of a checked checkbox holds the `traffic_rate`
of the last such selection, and every other checkbox is unchecked with rate
`1.0`. -/
theorem restoreSelections_rendered (nodes : List Selection)
    (servers : List (String × List NodeRec))
    (hbar : ∀ sn ∈ servers, '|' ∉ sn.1.data ∧ ∀ n ∈ sn.2, '|' ∉ n.name.data)
    (_hplain : ∀ sn ∈ servers, plainName sn.1 = true ∧ ∀ n ∈ sn.2, plainName n.name = true)
    (hsafe : ∀ sn ∈ servers, ∀ n ∈ sn.2, n.id.natAbs < 2 ^ 53)
    (hnames : ((renderServers servers).map NodeRow.rateName).Nodup) :
    restoreSelections nodes (renderServers servers)
      = servers.flatMap (fun sn => sn.2.map (restoredRow nodes sn.1)) ∧
    ∀ (boardName : String) (node : NodeRec),
      (restoredRow nodes boardName node).value = (renderNode boardName node).value ∧
      (restoredRow nodes boardName node).rateName = (renderNode boardName node).rateName ∧
      ((restoredRow nodes boardName node).checked = true
        ↔ ∃ s ∈ nodes, s.board_name = boardName ∧ s.inbound_id = node.id) ∧
      ((restoredRow nodes boardName node).checked = true →
        ∃ s ∈ nodes, s.board_name = boardName ∧ s.inbound_id = node.id ∧
          lastSelection nodes boardName node.id = some s ∧
          (restoredRow nodes boardName node).rateValue = s.traffic_rate) ∧
      ((restoredRow nodes boardName node).checked = false →
        (restoredRow nodes boardName node).rateValue = "1.0") := by
  constructor
  · rw [restoreSelections_eq_map nodes _ hnames (renderServers_wellNamed servers hbar)]
    simp only [renderServers, List.map_flatMap, List.map_map]
    apply List.flatMap_congr
    intro sn hsn
    apply List.map_congr_left
    intro n hn
    have := foldl_selectRow_rendered sn.1 n (hbar sn hsn).1 ((hbar sn hsn).2 n hn)
      (hsafe sn hsn n hn) nodes none
    simpa [restoredRow, lastSelection] using this
  · intro boardName node
    have hiff := lastSelection_isSome_iff nodes boardName node.id
    cases hl : lastSelection nodes boardName node.id with
    | none =>
      rw [hl] at hiff
      simp only [restoredRow, hl]
      refine ⟨trivial, trivial, ?_, ?_, ?_⟩
      · simpa [renderNode] using hiff
      · simp [renderNode]
      · intro _; rfl
    | some s =>
      rw [hl] at hiff
      have hs := (lastSelection_spec boardName node.id nodes none).1 s hl
      simp only [restoredRow, hl]
      refine ⟨trivial, trivial, ?_, ?_, ?_⟩
      · simpa using hiff
      · intro _
        rcases hs with h0 | h0
        · exact absurd h0 (by simp)
        · exact ⟨s, h0.1, h0.2.1, h0.2.2, rfl, rfl⟩
      · simp

theorem setChecked_length (i : Nat) (rows : List NodeRow) :
    (setChecked i rows).length = rows.length := by
  induction rows generalizing i with
  | nil => cases i <;> rfl
  | cons r rs ih => cases i <;> simp [setChecked, ih]

theorem setFirstRate_length (name rate : String) (rows : List NodeRow) :
    (setFirstRate name rate rows).length = rows.length := by
  induction rows with
  | nil => rfl
  | cons r rs ih =>
    simp only [setFirstRate]
    split <;> simp [ih]

theorem visitCheckbox_length (node : Selection) (i : Nat) (rows : List NodeRow) :
    (visitCheckbox node i rows).length = rows.length := by
  unfold visitCheckbox
  split
  · rfl
  · split
    · split
      · rw [setFirstRate_length, setChecked_length]
      · rfl
    · rfl

theorem restoreSelections_length (nodes : List Selection) (rows : List NodeRow) :
    (restoreSelections nodes rows).length = rows.length := by
  have inner : ∀ (node : Selection) (idx : List Nat) (rs : List NodeRow),
      (idx.foldl (fun rs i => visitCheckbox node i rs) rs).length = rs.length := by
    intro node idx
    induction idx with
    | nil => intro rs; rfl
    | cons i idx ih =>
      intro rs
      simp only [List.foldl_cons]
      rw [ih, visitCheckbox_length]
  induction nodes generalizing rows with
  | nil => rfl
  | cons node rest ih =>
    simp only [restoreSelections, List.foldl_cons] at ih ⊢
    rw [ih, restoreSelection, inner]

/-- Writing back as many rows as the modal holds puts exactly these rows in
the modal. -/
theorem modalRows_setModalRows (panels : JsObject Panel) :
    ∀ (rows : List NodeRow), rows.length = (modalRows panels).length →
      modalRows (setModalRows rows panels) = rows := by
  induction panels with
  | nil =>
    intro rows h
    simp only [modalRows, List.length_nil] at h
    simp [setModalRows, modalRows, List.length_eq_zero.mp h]
  | cons hd tl ih =>
    obtain ⟨k, panel⟩ := hd
    intro rows h
    rcases hm : panel.inEditModal with _ | _
    · simp only [modalRows, hm] at h
      simp only [setModalRows, modalRows, hm]
      exact ih rows h
    · cases hb : panel.body with
      | rows items =>
        simp only [modalRows, hm, hb, List.length_append] at h
        simp only [setModalRows, modalRows, hm, hb]
        rw [ih (rows.drop items.length) (by rw [List.length_drop]; omega)]
        exact List.take_append_drop _ _
      | template html =>
        simp only [modalRows, hm, hb] at h
        simp only [setModalRows, modalRows, hm, hb]
        exact ih rows h
      | noData =>
        simp only [modalRows, hm, hb] at h
        simp only [setModalRows, modalRows, hm, hb]
        exact ih rows h
      | loadFailed =>
        simp only [modalRows, hm, hb] at h
        simp only [setModalRows, modalRows, hm, hb]
        exact ih rows h

/-- When the callback of `editPackage` runs, the rows of the modal become the
reconciliation of the rows that were there. -/
theorem runTimer_modalRows (p : Page) (nodes : List Selection) (rest : List (List Selection))
    (h : p.timers = nodes :: rest) :
    modalRows (runTimer p).panels = restoreSelections nodes (modalRows p.panels) := by
  simp only [runTimer, h]
  exact modalRows_setModalRows _ _ (restoreSelections_length _ _)

/-- On the sample page `editPackage` followed by its callback shows the rows
of all servers with the one selected node checked at its rate. -/
theorem editPackage_sample :
    (editPackage sampleBackend "3" "gold" "100" [⟨"srv1", 5, "hk", "2"⟩] samplePage).thrown
      = none ∧
    modalRows (runTimer
        (editPackage sampleBackend "3" "gold" "100" [⟨"srv1", 5, "hk", "2"⟩]
          samplePage).state).panels
      = [ { value := "srv1|5|hk", checked := true, label := "hk", rateName := "rate_srv1_hk"
            rateId := "rate_srv1_hk", rateValue := "2" },
          { value := "srv1|7|jp", checked := false, label := "jp", rateName := "rate_srv1_jp"
            rateId := "rate_srv1_jp", rateValue := "1.0" },
          { value := "srv2|5|us", checked := false, label := "us", rateName := "rate_srv2_us"
            rateId := "rate_srv2_us", rateValue := "1.0" } ] := by
  decide

/-- The example of the specification: with the selection of node 5 of `srv1`
at rate 2 (the text `2` in an input), only the checkbox `srv1|5|hk` is checked
and its rate input holds `2`. -/
theorem restoreSelections_rendered_sample :
    restoreSelections [⟨"srv1", 5, "old name", "2"⟩] (renderServers sampleServers)
      = [ { value := "srv1|5|hk", checked := true, label := "hk", rateName := "rate_srv1_hk"
            rateId := "rate_srv1_hk", rateValue := "2" },
          { value := "srv1|7|jp", checked := false, label := "jp", rateName := "rate_srv1_jp"
            rateId := "rate_srv1_jp", rateValue := "1.0" },
          { value := "srv2|5|us", checked := false, label := "us", rateName := "rate_srv2_us"
            rateId := "rate_srv2_us", rateValue := "1.0" } ] :=
  (restoreSelections_rendered [⟨"srv1", 5, "old name", "2"⟩] sampleServers
    (by decide) (by decide) (by decide) (by decide)).1.trans (by decide)

/-- C3 (failing inputs): a node whose name contains a bar is never checked
although a selection has its board name and id, because its checkbox value
splits into four parts; and of two nodes of one server that share a name, the
selected one is checked while the rate goes to the input of the other. -/
theorem C3_bar_or_shared_name_breaks_reconciliation :
    restoreSelections [⟨"srv1", 5, "HK|01", "2"⟩] (renderServers [("srv1", [⟨5, "HK|01"⟩])])
      = [ { value := "srv1|5|HK|01", checked := false, label := "HK|01"
            rateName := "rate_srv1_HK|01", rateId := "rate_srv1_HK_01", rateValue := "1.0" } ] ∧
    restoreSelections [⟨"s", 6, "a", "2"⟩] (renderServers [("s", [⟨5, "a"⟩, ⟨6, "a"⟩])])
      = [ { value := "s|5|a", checked := false, label := "a", rateName := "rate_s_a"
            rateId := "rate_s_a", rateValue := "2" },
          { value := "s|6|a", checked := true, label := "a", rateName := "rate_s_a"
            rateId := "rate_s_a", rateValue := "1.0" } ] := by
  decide

end Packages

namespace Template

/-! ### The submit handler of the template form -/

/-- The loop of the handler stops at the first line with a tab and reports its
index plus one. -/
theorem scanLines_eq (lines : List String) (i : Nat) :
    scanLines lines i
      = match firstTabIndex lines with
        | some k => (true, tabMessage (i + k))
        | none => (false, "") := by
  induction lines generalizing i with
  | nil => rfl
  | cons line rest ih =>
    simp only [scanLines, firstTabIndex]
    by_cases h : hasTab line = true
    · simp [h]
    · simp only [h, if_false, ih]
      cases firstTabIndex rest with
      | none => rfl
      | some k => simp [Nat.add_assoc, Nat.add_comm 1 k]

theorem firstTabIndex_isSome_iff (lines : List String) :
    (firstTabIndex lines).isSome ↔ ∃ line ∈ lines, hasTab line = true := by
  induction lines with
  | nil => simp [firstTabIndex]
  | cons line rest ih =>
    simp only [firstTabIndex]
    by_cases h : hasTab line = true
    · simp [h]
    · simp [h, ih]

/-- The handler blocks the submission exactly when the trimmed text is empty or
one of the lines of the trimmed text contains a tab. -/
theorem onSubmit_prevented_iff (value : String) :
    (onSubmit value).prevented = true
      ↔ jsTrim value = "" ∨ ∃ line ∈ jsSplit (jsTrim value) '\n', hasTab line = true := by
  rw [← firstTabIndex_isSome_iff]
  simp only [onSubmit, scanLines_eq]
  by_cases h : jsTrim value = ""
  · simp [h]
  · cases firstTabIndex (jsSplit (jsTrim value) '\n') <;> simp [h]

/-- When the handler rejects a text for a tab, the number in the message is the
number of the first line with a tab in the trimmed text. -/
theorem onSubmit_reports_trimmed_line (value : String) (n : Nat)
    (hne : jsTrim value ≠ "") (hn : firstTabLine (jsTrim value) = some n) :
    (onSubmit value).alert
      = some ("YAML 格式错误:\n" ++ ("第 " ++ jsIntToString n
          ++ " 行包含 Tab 字符，YAML 不允许使用 Tab 缩进，请使用空格")) := by
  simp only [firstTabLine] at hn
  cases hk : firstTabIndex (jsSplit (jsTrim value) '\n') with
  | none => simp [hk] at hn
  | some k =>
    simp only [hk, Option.map_some', Option.some.injEq] at hn
    subst hn
    simp [onSubmit, scanLines_eq, hne, hk, tabMessage]

/-- C4 (failing input): the text whose only line starts with a tab is let
through, because the handler looks for tabs in the trimmed text only. -/
theorem C4_leading_tab_is_submitted :
    hasTab "\tkey: value" = true ∧
    jsSplit "\tkey: value" '\n' = ["\tkey: value"] ∧
    onSubmit "\tkey: value" = { prevented := false, alert := none } := by
  decide

/-- C5 (failing input): for a text with an empty first line and a tab on its
second line the handler blocks the submission and names line 1. -/
theorem C5_reports_line_of_trimmed_text :
    firstTabLine "\nkey:\tvalue" = some 2 ∧
    onSubmit "\nkey:\tvalue"
      = { prevented := true
          alert := some "YAML 格式错误:\n第 1 行包含 Tab 字符，YAML 不允许使用 Tab 缩进，请使用空格" } := by
  decide

end Template

namespace Nodes

/-! ### `formatBytes` -/

/-- The unit index is the integer logarithm: `k ^ i ≤ n < k ^ (i + 1)`. -/
theorem floorLogAux_spec (k : Nat) (hk : 2 ≤ k) (fuel n : Nat) (hfuel : n ≤ fuel)
    (hn : 0 < n) :
    k ^ floorLogAux k fuel n ≤ n ∧ n < k ^ (floorLogAux k fuel n + 1) := by
  induction fuel generalizing n with
  | zero => omega
  | succ fuel ih =>
    simp only [floorLogAux]
    by_cases hlt : n < k
    · simp only [hlt, if_true, Nat.pow_zero, Nat.zero_add, Nat.pow_one]
      exact ⟨hn, trivial⟩
    · simp only [hlt, if_false]
      have hk0 : 0 < k := by omega
      have hdiv_pos : 0 < n / k := Nat.div_pos (by omega) hk0
      have hdiv_lt : n / k < n := Nat.div_lt_self hn (by omega)
      obtain ⟨h1, h2⟩ := ih (n / k) (by omega) hdiv_pos
      constructor
      · calc k ^ (floorLogAux k fuel (n / k) + 1)
            = k ^ floorLogAux k fuel (n / k) * k := by rw [Nat.pow_succ]
          _ ≤ n / k * k := Nat.mul_le_mul_right k h1
          _ ≤ n := Nat.div_mul_le_self n k
      · have := (Nat.div_lt_iff_lt_mul hk0).mp h2
        rw [Nat.pow_succ]
        exact this

theorem floorLog_spec (n : Nat) (hn : 0 < n) :
    1024 ^ floorLog 1024 n ≤ n ∧ n < 1024 ^ (floorLog 1024 n + 1) :=
  floorLogAux_spec 1024 (by decide) n n (Nat.le_refl n) hn

/-- The number chosen by `toFixed(2)` is within half a hundredth of the
quotient, the upper neighbour on a tie. -/
theorem nearestHundredth_spec (num den : Nat) (hden : 0 < den) :
    2 * den * nearestHundredth num den ≤ 200 * num + den ∧
    200 * num + den < 2 * den * (nearestHundredth num den + 1) := by
  unfold nearestHundredth
  have hpos : 0 < 2 * den := by omega
  constructor
  · rw [Nat.mul_comm]
    exact Nat.div_mul_le_self _ _
  · exact Nat.lt_mul_div_succ _ hpos

theorem sizeText_mem (i : Nat) (h : i < 5) :
    sizes[i]? = some (sizeText i) ∧ sizeText i ∈ sizes := by
  interval_cases i <;> decide

theorem jsEndsWith_append (a u : String) : jsEndsWith (a ++ u) u = true := by
  simp [jsEndsWith, String.data_append]

theorem sizes_past_table (i : Nat) (h : 5 ≤ i) :
    sizes[i]? = none ∧ sizeText i = "undefined" := by
  have hnone : sizes[i]? = none := List.getElem?_eq_none (by simpa [sizes] using h)
  exact ⟨hnone, by simp [sizeText, hnone]⟩

/-- The mathematical index is below five exactly for counts below `1024 ^ 5`. -/
theorem floorLog_lt_five_iff (bytes : Nat) (hpos : 0 < bytes) :
    floorLog 1024 bytes < 5 ↔ bytes < 1024 ^ 5 := by
  have hlog := floorLog_spec bytes hpos
  constructor
  · intro h
    have h5 : (1024 : Nat) ^ (floorLog 1024 bytes + 1) ≤ 1024 ^ 5 :=
      Nat.pow_le_pow_right (by decide) (by omega)
    omega
  · intro h
    by_contra hge
    have h5 : (1024 : Nat) ^ 5 ≤ 1024 ^ floorLog 1024 bytes :=
      Nat.pow_le_pow_right (by decide) (by omega)
    omega

/-- What `formatBytes` returns, whatever index the engine computes: `0 B` for
0, and for a positive count below `2 ^ 53` the quotient of the count by
`1024 ^ i`, rounded to the nearest hundredth and written with two decimals, a
space, and entry `i` of the table when `i` is below five. With the index 1 at
1536 and 3 at 1073741824 the results are `1.50 KB` and `1.00 GB`. -/
theorem formatBytes_value (unitIndex : Nat → Nat) :
    formatBytes unitIndex 0 = "0 B" ∧
    (unitIndex 1536 = 1 → formatBytes unitIndex 1536 = "1.50 KB") ∧
    (unitIndex 1073741824 = 3 → formatBytes unitIndex 1073741824 = "1.00 GB") ∧
    ∀ bytes : Nat, 0 < bytes → bytes < 2 ^ 53 →
      ∃ n : Nat,
        2 * 1024 ^ unitIndex bytes * n ≤ 200 * bytes + 1024 ^ unitIndex bytes ∧
        200 * bytes + 1024 ^ unitIndex bytes < 2 * 1024 ^ unitIndex bytes * (n + 1) ∧
        formatBytes unitIndex bytes = hundredthsText n ++ " " ++ sizeText (unitIndex bytes) ∧
        (unitIndex bytes < 5 → sizes[unitIndex bytes]? = some (sizeText (unitIndex bytes))) := by
  refine ⟨rfl, ?_, ?_, ?_⟩
  · intro h
    simp only [formatBytes, h]
    decide
  · intro h
    simp only [formatBytes, h]
    decide
  · intro bytes hpos _
    have hden : 0 < 1024 ^ unitIndex bytes := pow_pos (by decide) _
    have hnear := nearestHundredth_spec bytes (1024 ^ unitIndex bytes) hden
    refine ⟨nearestHundredth bytes (1024 ^ unitIndex bytes), hnear.1, hnear.2, ?_,
      fun h => (sizeText_mem _ h).1⟩
    have hne : bytes ≠ 0 := by omega
    simp [formatBytes, hne, toFixed2]

/-- Whenever the index is below five the result ends with the entry of the
table at that index, one of `B`, `KB`, `MB`, `GB`, `TB`; so does `0 B`. -/
theorem formatBytes_unit_in_table (unitIndex : Nat → Nat) (bytes : Nat)
    (h : bytes = 0 ∨ unitIndex bytes < 5) :
    ∃ u ∈ sizes, jsEndsWith (formatBytes unitIndex bytes) u = true := by
  by_cases h0 : bytes = 0
  · subst h0
    have h0 : formatBytes unitIndex 0 = "0 B" := rfl
    rw [h0]
    exact ⟨"B", by decide, by decide⟩
  · have hidx : unitIndex bytes < 5 := by
      rcases h with h | h
      · exact absurd h h0
      · exact h
    refine ⟨sizeText (unitIndex bytes), (sizeText_mem _ hidx).2, ?_⟩
    simp only [formatBytes, h0, if_false]
    exact jsEndsWith_append _ _

theorem not_endsWith_unit_of_undefined (pre : String) :
    sizes.all (fun u => !jsEndsWith (pre ++ " undefined") u) = true := by
  have hd : " undefined".data = [' ', 'u', 'n', 'd', 'e', 'f', 'i', 'n', 'e', 'd'] := rfl
  have hB : "B".data = ['B'] := rfl
  have hKB : "KB".data = ['K', 'B'] := rfl
  have hMB : "MB".data = ['M', 'B'] := rfl
  have hGB : "GB".data = ['G', 'B'] := rfl
  have hTB : "TB".data = ['T', 'B'] := rfl
  simp [sizes, jsEndsWith, List.isSuffixOf, String.data_append, hd, hB, hKB, hMB, hGB, hTB,
    List.isPrefixOf]

/-- C6 (failing input): the three sample values come out as stated when the
index is 1 at 1536 and 3 at 1073741824, but at `5 * 1024 ^ 5` bytes the index
is 5, in exact arithmetic as in floating point, the table has no entry 5, and
`formatBytes` returns `5.00 undefined` instead of a quotient followed by a
unit of the table. -/
theorem C6_no_unit_at_5_times_1024_pow_5 (unitIndex : Nat → Nat)
    (h1 : unitIndex 1536 = 1) (h3 : unitIndex 1073741824 = 3)
    (h5 : unitIndex 5629499534213120 = 5) :
    formatBytes unitIndex 0 = "0 B" ∧ formatBytes unitIndex 1536 = "1.50 KB" ∧
    formatBytes unitIndex 1073741824 = "1.00 GB" ∧
    floorLog 1024 5629499534213120 = 5 ∧ sizes[5]? = none ∧
    formatBytes unitIndex 5629499534213120 = "5.00 undefined" := by
  refine ⟨rfl, ?_, ?_, by decide, by decide, ?_⟩
  · simp only [formatBytes, h1]
    decide
  · simp only [formatBytes, h3]
    decide
  · simp only [formatBytes, h5]
    decide

/-- C6, instance with the mathematical index in the place of the engine's. -/
theorem C6_no_unit_at_5_times_1024_pow_5_witness :
    floorLog 1024 1536 = 1 ∧ floorLog 1024 1073741824 = 3 ∧
    formatBytes (floorLog 1024) 1536 = "1.50 KB" ∧
    formatBytes (floorLog 1024) 5629499534213120 = "5.00 undefined" :=
  have h := C6_no_unit_at_5_times_1024_pow_5 (floorLog 1024) (by decide) (by decide)
    (by decide)
  ⟨by decide, by decide, h.2.1, h.2.2.2.2.2⟩

/-- C7 (failing input): `formatBytes` does not clamp the unit index. Whenever
the index is five or more, as it is for `2 ^ 51` bytes, the lookup in the
table is out of range and the result ends with ` undefined`, hence with none
of the units `B`, `KB`, `MB`, `GB`, `TB`. -/
theorem C7_index_past_table_prints_undefined (unitIndex : Nat → Nat) (bytes : Nat)
    (hpos : bytes ≠ 0) (hidx : 5 ≤ unitIndex bytes) :
    sizes[unitIndex bytes]? = none ∧
    (∃ pre : String, formatBytes unitIndex bytes = pre ++ " undefined") ∧
    sizes.all (fun u => !jsEndsWith (formatBytes unitIndex bytes) u) = true := by
  have hpast := sizes_past_table (unitIndex bytes) hidx
  have hform : formatBytes unitIndex bytes
      = toFixed2 bytes (1024 ^ unitIndex bytes) ++ " undefined" := by
    have hsp : (" " : String) ++ "undefined" = " undefined" := rfl
    simp only [formatBytes, hpos, if_false, hpast.2, String.append_assoc, hsp]
  refine ⟨hpast.1, ⟨_, hform⟩, ?_⟩
  rw [hform]
  exact not_endsWith_unit_of_undefined _

/-- C7, instance at `2 ^ 51` bytes, where the mathematical index and the
floating-point quotient 5.1 both give 5. -/
theorem C7_index_past_table_prints_undefined_witness :
    5 ≤ floorLog 1024 2251799813685248 ∧
    formatBytes (floorLog 1024) 2251799813685248 = "2.00 undefined" ∧
    sizes.all (fun u => !jsEndsWith (formatBytes (floorLog 1024) 2251799813685248) u)
      = true :=
  ⟨by decide, by decide,
   (C7_index_past_table_prints_undefined (floorLog 1024) 2251799813685248 (by decide)
      (by decide)).2.2⟩

/-! ### `loadNodes` of the node page -/

/-- The continuation of `loadNodes` always returns normally with the flag
cleared and the refresh button enabled. -/
theorem loadNodesResume_releases (resp : Response) (v : View) :
    (loadNodesResume resp v).thrown = none ∧
    (loadNodesResume resp v).state.isLoading = false ∧
    (loadNodesResume resp v).state.refreshBtnDisabled = false := by
  simp only [loadNodesResume]
  cases (loadNodesTry resp v).thrown <;> simp [loadNodesFinally]

/-- C9: while `isLoading` is set a call of `loadNodes()` returns at once and
leaves the whole state as it is, the request log included, so a call made
between the start of a request and its completion is a no-op; a call that
passes the guard sets the flag, disables the refresh button and issues one
request, and whatever the outcome of that request the continuation ends with
the flag cleared and the refresh button enabled. -/
theorem C9_load_is_single_flight (resp : Response) (v : View) :
    (v.isLoading = true → loadNodes resp v = { state := v, thrown := none }) ∧
    (∀ other : Response,
      loadNodes other (loadNodesBegin v) = { state := loadNodesBegin v, thrown := none }) ∧
    ((loadNodesBegin v).isLoading = true ∧ (loadNodesBegin v).refreshBtnDisabled = true ∧
      (loadNodesBegin v).requests = v.requests ++ ["/api/inbounds"]) ∧
    ((loadNodesResume resp (loadNodesBegin v)).thrown = none ∧
      (loadNodesResume resp (loadNodesBegin v)).state.isLoading = false ∧
      (loadNodesResume resp (loadNodesBegin v)).state.refreshBtnDisabled = false) ∧
    (v.isLoading = false →
      loadNodes resp v = loadNodesResume resp (loadNodesBegin v) ∧
      (loadNodes resp v).state.isLoading = false ∧
      (loadNodes resp v).state.refreshBtnDisabled = false) := by
  refine ⟨?_, ?_, ⟨rfl, rfl, rfl⟩, loadNodesResume_releases _ _, ?_⟩
  · intro h
    simp [loadNodes, h]
  · intro other
    simp [loadNodes, loadNodesBegin]
  · intro h
    have hrun : loadNodes resp v = loadNodesResume resp (loadNodesBegin v) := by
      simp [loadNodes, h]
    rw [hrun]
    exact ⟨rfl, (loadNodesResume_releases _ _).2⟩

/-- C9, instances: a call on a page that is loading changes nothing, and a call
on the idle sample page ends with the flag cleared. -/
theorem C9_load_is_single_flight_witness :
    loadNodes (Response.rejected "Failed to fetch") (loadNodesBegin sampleView)
      = { state := loadNodesBegin sampleView, thrown := none } ∧
    (loadNodes (Response.rejected "Failed to fetch") sampleView).state.isLoading = false ∧
    (loadNodes (Response.rejected "Failed to fetch") sampleView).state.refreshBtnDisabled
      = false :=
  ⟨(C9_load_is_single_flight (Response.rejected "Failed to fetch")
      (loadNodesBegin sampleView)).1 rfl,
   ((C9_load_is_single_flight (Response.rejected "Failed to fetch") sampleView).2.2.2.2 rfl).2⟩

/-- C10 (as amended): for a rejected request, a body that does not parse, or a
parsed body of a response without the `ok` flag, `loadNodes()` returns
normally with the loading indicator hidden and the error panel shown; the
text of the panel is the message of the failure when that message is not
empty and the fixed text `加载节点信息失败` when it is empty, where the message is
that of the rejection, or of the parse error whatever the status, or, for a
parsed body of a response without the `ok` flag, the `error` field of the body
when it is present and not empty and `加载失败` otherwise. -/
theorem C10_failure_shows_error_panel (resp : Response) (v : View)
    (hfail : isFailure resp = true) (hidle : v.isLoading = false) :
    (loadNodes resp v).thrown = none ∧
    (loadNodes resp v).state.loadingIndicatorDisplay = "none" ∧
    (loadNodes resp v).state.errorMessageDisplay = "flex" ∧
    (loadNodes resp v).state.errorText
      = (if failureMessage resp = "" then "加载节点信息失败" else failureMessage resp) ∧
    (failureMessage resp ≠ "" → (loadNodes resp v).state.errorText = failureMessage resp) ∧
    (loadNodes resp v).state.isLoading = false := by
  have htry : ∀ w : View,
      loadNodesTry resp w = { state := w, thrown := some (failureMessage resp) } := by
    intro w
    cases resp with
    | rejected m => rfl
    | badBody ok m => rfl
    | json ok data =>
      have hok : ok = false := by simpa [isFailure] using hfail
      subst hok
      simp only [loadNodesTry, failureMessage, jsOr]
      cases data.error <;> rfl
  have hrun : loadNodes resp v
      = { state := loadNodesFinally
            (loadNodesCatch (failureMessage resp) (loadNodesBegin v))
          thrown := none } := by
    simp [loadNodes, hidle, loadNodesResume, htry]
  have htext : (loadNodes resp v).state.errorText
      = (if failureMessage resp = "" then "加载节点信息失败" else failureMessage resp) := by
    rw [hrun]
    rfl
  refine ⟨by rw [hrun], by rw [hrun]; rfl, by rw [hrun]; rfl, htext, ?_, by rw [hrun]; rfl⟩
  intro hne
  rw [htext, if_neg hne]

/-- C10, instance of the amended statement: a response with status 500 and the
body `{"error": "数据库错误"}` on the idle sample page. -/
theorem C10_failure_shows_error_panel_witness :
    (loadNodes (Response.json false ⟨some "数据库错误", none, none, none⟩) sampleView).thrown
      = none ∧
    (loadNodes (Response.json false
        ⟨some "数据库错误", none, none, none⟩) sampleView).state.errorMessageDisplay = "flex" ∧
    (loadNodes (Response.json false
        ⟨some "数据库错误", none, none, none⟩) sampleView).state.errorText = "数据库错误" :=
  have h := C10_failure_shows_error_panel
    (Response.json false ⟨some "数据库错误", none, none, none⟩) sampleView rfl rfl
  ⟨h.1, h.2.2.1, h.2.2.2.2.1 (by decide)⟩

/-- C10 (counterexample): a rejection whose error has an empty message shows
the fixed text `加载节点信息失败`, not the empty message; a response without the
`ok` flag whose body has the `error` field set to the empty text shows
`加载失败`, not the field; and a response without the `ok` flag whose body does
not parse shows the message of the parse error, not the default `加载失败`. -/
theorem C10_error_text_is_not_always_the_message :
    (loadNodes (Response.rejected "") sampleView).state.errorText = "加载节点信息失败" ∧
    (loadNodes (Response.json false ⟨some "", none, none, none⟩) sampleView).state.errorText
      = "加载失败" ∧
    (loadNodes (Response.badBody false "Unexpected token <") sampleView).state.errorText
      = "Unexpected token <" := by
  decide

end Nodes

namespace Password

/-! ### The strength meter -/

theorem hasLetter_eq (password : String) :
    hasLetter password
      = decide (∃ c ∈ password.data, ('a' ≤ c ∧ c ≤ 'z') ∨ ('A' ≤ c ∧ c ≤ 'Z')) := by
  rw [Bool.eq_iff_iff]
  simp [hasLetter, List.any_eq_true]

theorem hasDigit_eq (password : String) :
    hasDigit password = decide (∃ c ∈ password.data, '0' ≤ c ∧ c ≤ '9') := by
  rw [Bool.eq_iff_iff]
  simp [hasDigit, List.any_eq_true]

theorem hasSymbol_eq (password : String) :
    hasSymbol password
      = decide (∃ c ∈ password.data, c ∈ ['!', '@', '#', '$', '%', '^', '&', '*']) := by
  have hd : "!@#$%^&*".data = ['!', '@', '#', '$', '%', '^', '&', '*'] := rfl
  rw [Bool.eq_iff_iff]
  simp [hasSymbol, List.any_eq_true, hd]

/-- The length of a string in code units is its number of characters plus one
for every character outside the basic plane. -/
theorem jsLength_eq (s : String) :
    jsLength s = s.data.length + (s.data.filter fun c => decide (65536 ≤ c.val.toNat)).length := by
  unfold jsLength
  induction s.data with
  | nil => rfl
  | cons c cs ih =>
    by_cases h : c.val.toNat < 65536
    · have h' : ¬ 65536 ≤ c.val.toNat := by omega
      simp [h, h', ih]
      omega
    · have h' : 65536 ≤ c.val.toNat := by omega
      simp [h, h', ih]
      omega

/-- C8: the score of a password is the number of criteria it satisfies among
length at least 6, a letter `a` to `z` or `A` to `Z`, a digit, length at least
10 and one of the symbols `!@#$%^&*`, so it is at most 5; the label is weak
exactly for scores up to 1, medium exactly for scores 2 and 3, strong exactly
for scores from 4, each with its own colour, and the width of the bar is
`score / 5 * 100` percent; `abc` scores 1 and is weak, `abcdefg123` scores 4
and is strong, and a symbol adds one to the score: `abcdef` scores 2 and
`abcde*` scores 3. The length is counted in UTF-16 code units, as
`password.length` counts it. -/
theorem C8_strength_score (password : String) :
    (onInput password).strength = criteriaMet password ∧
    (onInput password).strength
      = (if 6 ≤ jsLength password then 1 else 0)
        + (if ∃ c ∈ password.data, ('a' ≤ c ∧ c ≤ 'z') ∨ ('A' ≤ c ∧ c ≤ 'Z') then 1 else 0)
        + (if ∃ c ∈ password.data, '0' ≤ c ∧ c ≤ '9' then 1 else 0)
        + (if 10 ≤ jsLength password then 1 else 0)
        + (if ∃ c ∈ password.data, c ∈ ['!', '@', '#', '$', '%', '^', '&', '*']
            then 1 else 0) ∧
    (onInput password).strength ≤ 5 ∧
    ((onInput password).text = "弱" ↔ (onInput password).strength ≤ 1) ∧
    ((onInput password).text = "中等"
      ↔ 2 ≤ (onInput password).strength ∧ (onInput password).strength ≤ 3) ∧
    ((onInput password).text = "强" ↔ 4 ≤ (onInput password).strength) ∧
    ((onInput password).background = "#dc3545" ↔ (onInput password).strength ≤ 1) ∧
    ((onInput password).background = "#ffc107"
      ↔ 2 ≤ (onInput password).strength ∧ (onInput password).strength ≤ 3) ∧
    ((onInput password).background = "#28a745" ↔ 4 ≤ (onInput password).strength) ∧
    (onInput password).widthPercent = ((onInput password).strength : ℚ) / 5 * 100 ∧
    (onInput "abc").strength = 1 ∧ (onInput "abc").text = "弱" ∧
    (onInput "abcdefg123").strength = 4 ∧ (onInput "abcdefg123").text = "强" ∧
    (onInput "abcdef").strength = 2 ∧ (onInput "abcde*").strength = 3 ∧
    (onInput "!").strength = 1 ∧ (onInput "7").strength = 1 ∧
    (onInput "Abcdefg123!").strength = 5 ∧ (onInput "Abcdefg123!").text = "强" ∧
    (onInput "").strength = 0 ∧
    (onInput "abcde").strength = 1 ∧ (onInput "abcdefghi").strength = 2 ∧
    (onInput "abcdefghij").strength = 3 ∧ (onInput "😀😀😀").strength = 1 := by
  have hL : (∃ c ∈ password.data, ('a' ≤ c ∧ c ≤ 'z') ∨ ('A' ≤ c ∧ c ≤ 'Z'))
      ↔ hasLetter password = true := by
    rw [hasLetter_eq, decide_eq_true_eq]
  have hD : (∃ c ∈ password.data, '0' ≤ c ∧ c ≤ '9') ↔ hasDigit password = true := by
    rw [hasDigit_eq, decide_eq_true_eq]
  have hS : (∃ c ∈ password.data, c ∈ ['!', '@', '#', '$', '%', '^', '&', '*'])
      ↔ hasSymbol password = true := by
    rw [hasSymbol_eq, decide_eq_true_eq]
  refine ⟨?_, ?_, ?_, ?_, ?_, ?_, ?_, ?_, ?_, ?_, by decide, by decide, by decide, by decide,
    by decide, by decide, by decide, by decide, by decide, by decide, by decide, by decide,
    by decide, by decide, by decide⟩ <;>
    simp only [onInput, criteriaMet, criteria, hL, hD, hS] <;>
    by_cases h1 : jsLength password ≥ 6 <;> by_cases h2 : hasLetter password = true <;>
    by_cases h3 : hasDigit password = true <;> by_cases h4 : jsLength password ≥ 10 <;>
    by_cases h5 : hasSymbol password = true <;>
    simp [h1, h2, h3, h4, h5]

end Password

namespace Index

/-! ### Copying the subscription link -/

/-- Every run of `copySubscription` shows exactly one dialog, removes the text
area it attached, and shows the manual prompt exactly when the async write is
missing or rejected and the legacy command raises. -/
theorem copySubscription_one_notice (async : AsyncWrite) (legacy : LegacyCopy) (h : Home) :
    (∃ n, (copySubscription async legacy h).notices = h.notices ++ [n]) ∧
    (copySubscription async legacy h).textAreas = h.textAreas ∧
    ((copySubscription async legacy h).notices
        = h.notices ++ [Notice.prompt "请手动复制订阅链接：" h.subscriptionUrl]
      ↔ async ≠ AsyncWrite.resolved ∧ ∃ m, legacy = LegacyCopy.throws m) := by
  cases async <;> cases legacy <;>
    simp [copySubscription, fallbackCopy, List.dropLast_concat]

/-- C13 (failing input): with no async clipboard, or with a rejected async
write, and a legacy command that returns `false`, `copySubscription` leaves
the clipboard as it was and shows the alert that the link has been copied,
with no prompt. -/
theorem C13_failed_legacy_copy_reported_as_success :
    copied AsyncWrite.absent LegacyCopy.reportsFailure = false ∧
    copySubscription AsyncWrite.absent LegacyCopy.reportsFailure sampleHome
      = { subscriptionUrl := "https://example.org/sub/abc", clipboard := "old"
          textAreas := [], notices := [Notice.alert "订阅链接已复制到剪贴板！"] } ∧
    copySubscription (AsyncWrite.rejected "NotAllowedError") LegacyCopy.reportsFailure
        sampleHome
      = { subscriptionUrl := "https://example.org/sub/abc", clipboard := "old"
          textAreas := [], notices := [Notice.alert "订阅链接已复制到剪贴板！"] } := by
  decide

end Index

namespace Packages

/-! ### `toggleServerNodes` and the button of `refreshAllNodes` -/

theorem setPanelBody_sameFrame (elemId : String) (body : PanelBody) (p : Page)
    (k : String) (panel : Panel) (h : jsGet p.panels k = some panel) :
    ∃ q, jsGet (setPanelBody elemId body p).state.panels k = some q ∧ sameFrame q panel := by
  unfold setPanelBody
  cases hp : jsGet p.panels elemId with
  | none => exact ⟨panel, h, rfl, rfl, rfl, rfl⟩
  | some pe =>
    by_cases hk : elemId = k
    · subst hk
      rw [hp] at h
      simp only [Option.some.injEq] at h
      subst h
      exact ⟨{ pe with body := body }, jsGet_jsSet_same _ _ _, rfl, rfl, rfl, rfl⟩
    · exact ⟨panel, by simpa [jsGet_jsSet_other _ _ _ _ hk] using h, rfl, rfl, rfl, rfl⟩

theorem sameFrame_trans {a b c : Panel} (h1 : sameFrame a b) (h2 : sameFrame b c) :
    sameFrame a c :=
  ⟨h1.1.trans h2.1, h1.2.1.trans h2.2.1, h1.2.2.1.trans h2.2.2.1, h1.2.2.2.trans h2.2.2.2⟩

theorem tryWritePanel_sameFrame (elemId : String) (body : PanelBody) (p : Page)
    (k : String) (panel : Panel) (h : jsGet p.panels k = some panel) :
    ∃ q, jsGet (tryWritePanel elemId body p).state.panels k = some q ∧ sameFrame q panel := by
  simp only [tryWritePanel]
  split
  · exact setPanelBody_sameFrame _ _ _ _ _ h
  · obtain ⟨q1, hq1, hf1⟩ := setPanelBody_sameFrame elemId body p k panel h
    unfold loadNodesCatch
    obtain ⟨q2, hq2, hf2⟩ := setPanelBody_sameFrame elemId PanelBody.loadFailed
      { (setPanelBody elemId body p).state with
        consoleErrors := (setPanelBody elemId body p).state.consoleErrors
          ++ ["加载节点失败: " ++ ‹String›] } k q1 (by simpa using hq1)
    exact ⟨q2, hq2, sameFrame_trans hf2 hf1⟩

/-- A call of `loadNodes` changes at most the content of a panel. -/
theorem loadNodes_sameFrame (srv : Backend) (formType boardName : String) (p : Page)
    (k : String) (panel : Panel) (h : jsGet p.panels k = some panel) :
    ∃ q, jsGet (loadNodes srv formType boardName p).state.panels k = some q ∧
      sameFrame q panel := by
  unfold loadNodes
  rcases srv.getNodes p.requests.length boardName with m | m | data
  · exact setPanelBody_sameFrame _ _ _ _ _ (by simpa using h)
  · exact setPanelBody_sameFrame _ _ _ _ _ (by simpa using h)
  · obtain ⟨success, ns⟩ := data
    cases success <;> rcases ns with _ | (_ | ⟨n, ns⟩) <;> simp only [] <;>
      exact tryWritePanel_sameFrame _ _ _ _ _ (by simpa [cacheNodes_frame] using h)

/-- The guarded load on a page that holds the panel of the server: it returns
normally, changes at most the content of the panel, and issues a request and
marks the key exactly when the key was not marked. -/
theorem loadIfNeeded_effect (srv : Backend) (formType boardName : String) (p : Page)
    (panel : Panel) (hpanel : jsGet p.panels (panelId formType boardName) = some panel) :
    (loadIfNeeded srv formType boardName p).thrown = none ∧
    (∃ q, jsGet (loadIfNeeded srv formType boardName p).state.panels
          (panelId formType boardName) = some q ∧ sameFrame q panel) ∧
    (loadIfNeeded srv formType boardName p).state.requests
      = (if jsTruthy (jsGet p.loadedServers (loadedKey formType boardName)) = false
          then p.requests ++ [getNodesUrl boardName] else p.requests) ∧
    (loadIfNeeded srv formType boardName p).state.loadedServers
      = (if jsTruthy (jsGet p.loadedServers (loadedKey formType boardName)) = false
          then jsSet p.loadedServers (loadedKey formType boardName) true
          else p.loadedServers) := by
  by_cases hl : jsTruthy (jsGet p.loadedServers (loadedKey formType boardName)) = true
  · refine ⟨?_, ⟨panel, ?_, rfl, rfl, rfl, rfl⟩, ?_, ?_⟩
    · simp [loadIfNeeded, hl]
    · simpa [loadIfNeeded, hl] using hpanel
    · simp [loadIfNeeded, hl]
    · simp [loadIfNeeded, hl]
  · have hl' : jsTruthy (jsGet p.loadedServers (loadedKey formType boardName)) = false := by
      simpa using hl
    have hthrown := loadNodes_thrown srv formType boardName p (by simp [hpanel])
    have hframe := loadNodes_frame srv formType boardName p
    obtain ⟨q, hq, hsame⟩ := loadNodes_sameFrame srv formType boardName p _ panel hpanel
    refine ⟨?_, ⟨q, ?_, hsame⟩, ?_, ?_⟩
    · simp [loadIfNeeded, hl', hthrown]
    · simpa [loadIfNeeded, hl', hthrown, markLoaded] using hq
    · simp [loadIfNeeded, hl', hthrown, markLoaded, hframe.1]
    · simp [loadIfNeeded, hl', hthrown, markLoaded, hframe.2.1]

/-- What a toggle does to its own panel, to the request log and to
`loadedServers`, when the panel is in the document inside a server group. -/
theorem toggleServerNodes_effect (srv : Backend) (formType boardName : String) (p : Page)
    (panel : Panel) (hpanel : jsGet p.panels (panelId formType boardName) = some panel)
    (hgroup : panel.hasServerGroup = true) :
    (∃ q, jsGet (toggleServerNodes srv formType boardName p).state.panels
          (panelId formType boardName) = some q ∧
        q.hasServerGroup = true ∧
        q.display = (if panel.display = "none" then "block" else "none")) ∧
    (toggleServerNodes srv formType boardName p).state.requests
      = (if panel.display = "none" ∧ panel.toggleIcon.isSome = true ∧
            jsTruthy (jsGet p.loadedServers (loadedKey formType boardName)) = false
          then p.requests ++ [getNodesUrl boardName] else p.requests) ∧
    (toggleServerNodes srv formType boardName p).state.loadedServers
      = (if panel.display = "none" ∧ panel.toggleIcon.isSome = true ∧
            jsTruthy (jsGet p.loadedServers (loadedKey formType boardName)) = false
          then jsSet p.loadedServers (loadedKey formType boardName) true
          else p.loadedServers) := by
  by_cases hd : panel.display = "none"
  · cases hi : panel.toggleIcon with
    | none =>
      simp [toggleServerNodes, hpanel, hgroup, hd, showPanel, hi, jsGet_jsSet_same]
    | some icon =>
      have hrun : toggleServerNodes srv formType boardName p
          = loadIfNeeded srv formType boardName
              (showPanel (panelId formType boardName) panel "block" "▲" p).state := by
        simp [toggleServerNodes, hpanel, hgroup, hd, showPanel, hi]
      have hshown : ∃ shown : Panel,
          jsGet (showPanel (panelId formType boardName) panel "block" "▲" p).state.panels
            (panelId formType boardName) = some shown ∧
          shown.display = "block" ∧ shown.hasServerGroup = true := by
        simp [showPanel, hi, jsGet_jsSet_same, hgroup]
      obtain ⟨shown, hget, hdisp, hgrp⟩ := hshown
      obtain ⟨_, ⟨q, hq, hsame⟩, hreq, hloaded⟩ := loadIfNeeded_effect srv formType boardName
        (showPanel (panelId formType boardName) panel "block" "▲" p).state shown hget
      have hfr := showPanel_frame (panelId formType boardName) panel "block" "▲" p
      rw [hrun, hreq, hloaded, hfr.1, hfr.2.1]
      refine ⟨⟨q, hq, by rw [hsame.2.1]; exact hgrp, by rw [hsame.1, hdisp]; simp [hd]⟩, ?_, ?_⟩
      · simp [hd]
      · simp [hd]
  · cases hi : panel.toggleIcon <;>
      simp [toggleServerNodes, hpanel, hgroup, hd, showPanel, hi, jsGet_jsSet_same]

theorem loadedKey_add_ne_edit (b b' : String) : loadedKey "add" b ≠ loadedKey "edit" b' := by
  intro h
  have hdata := congrArg String.data h
  simp [loadedKey, String.data_append] at hdata

/-- A toggle leaves every key of `loadedServers` other than its own as it
was, whatever the state of the page. -/
theorem toggleServerNodes_other_keys (srv : Backend) (formType boardName : String)
    (p : Page) (k : String) (hk : loadedKey formType boardName ≠ k) :
    jsGet (toggleServerNodes srv formType boardName p).state.loadedServers k
      = jsGet p.loadedServers k := by
  cases hpanel : jsGet p.panels (panelId formType boardName) with
  | none => simp [toggleServerNodes, hpanel]
  | some panel =>
    by_cases hgroup : panel.hasServerGroup = true
    · rw [(toggleServerNodes_effect srv formType boardName p panel hpanel hgroup).2.2]
      split
      · exact jsGet_jsSet_other _ _ _ _ hk
      · rfl
    · simp [toggleServerNodes, hpanel, hgroup]

/-- C11: a toggle of a panel that sits in a server group flips its visibility,
and a second toggle restores the visibility it had; a request is issued only
by a toggle that reveals a hidden panel whose key `formType_boardName` is not
marked in `loadedServers`, and then it is the one request of `loadNodes` and
the key is marked afterwards; every other key keeps its value, so a toggle
under the form `add` never changes a key of the form `edit` and a toggle under
`edit` never changes a key of `add`. -/
theorem C11_toggle_flips_and_loads_once (srv : Backend) (formType boardName : String)
    (p : Page) :
    (∀ panel : Panel,
      jsGet p.panels (panelId formType boardName) = some panel →
      panel.hasServerGroup = true →
      (∃ q, jsGet (toggleServerNodes srv formType boardName p).state.panels
            (panelId formType boardName) = some q ∧
          (q.display = "none" ↔ ¬ panel.display = "none")) ∧
      (∃ q, jsGet (toggleServerNodes srv formType boardName
              (toggleServerNodes srv formType boardName p).state).state.panels
            (panelId formType boardName) = some q ∧
          (q.display = "none" ↔ panel.display = "none")) ∧
      (toggleServerNodes srv formType boardName p).state.requests
        = (if panel.display = "none" ∧ panel.toggleIcon.isSome = true ∧
              jsTruthy (jsGet p.loadedServers (loadedKey formType boardName)) = false
            then p.requests ++ [getNodesUrl boardName] else p.requests) ∧
      (panel.display = "none" ∧ panel.toggleIcon.isSome = true ∧
          jsTruthy (jsGet p.loadedServers (loadedKey formType boardName)) = false →
        jsGet (toggleServerNodes srv formType boardName p).state.loadedServers
          (loadedKey formType boardName) = some true)) ∧
    ((toggleServerNodes srv formType boardName p).state.requests ≠ p.requests →
      ∃ panel : Panel, jsGet p.panels (panelId formType boardName) = some panel ∧
        panel.display = "none" ∧
        jsTruthy (jsGet p.loadedServers (loadedKey formType boardName)) = false) ∧
    (∀ k : String, loadedKey formType boardName ≠ k →
      jsGet (toggleServerNodes srv formType boardName p).state.loadedServers k
        = jsGet p.loadedServers k) ∧
    (∀ other : String, formType = "add" →
      jsGet (toggleServerNodes srv formType boardName p).state.loadedServers
          (loadedKey "edit" other)
        = jsGet p.loadedServers (loadedKey "edit" other)) ∧
    (∀ other : String, formType = "edit" →
      jsGet (toggleServerNodes srv formType boardName p).state.loadedServers
          (loadedKey "add" other)
        = jsGet p.loadedServers (loadedKey "add" other)) := by
  refine ⟨?_, ?_, ?_, ?_, ?_⟩
  · intro panel hpanel hgroup
    obtain ⟨⟨q, hq, hqg, hqd⟩, hreq, hloaded⟩ :=
      toggleServerNodes_effect srv formType boardName p panel hpanel hgroup
    obtain ⟨⟨q2, hq2, _, hq2d⟩, _, _⟩ :=
      toggleServerNodes_effect srv formType boardName
        (toggleServerNodes srv formType boardName p).state q hq hqg
    refine ⟨⟨q, hq, ?_⟩, ⟨q2, hq2, ?_⟩, hreq, ?_⟩
    · rw [hqd]
      by_cases hd : panel.display = "none" <;> simp [hd]
    · rw [hq2d, hqd]
      by_cases hd : panel.display = "none" <;> simp [hd]
    · intro hcond
      rw [hloaded, if_pos hcond]
      exact jsGet_jsSet_same _ _ _
  · intro hne
    cases hpanel : jsGet p.panels (panelId formType boardName) with
    | none => exact absurd (by simp [toggleServerNodes, hpanel]) hne
    | some panel =>
      by_cases hgroup : panel.hasServerGroup = true
      · have hreq := (toggleServerNodes_effect srv formType boardName p panel hpanel hgroup).2.1
        by_cases hcond : panel.display = "none" ∧ panel.toggleIcon.isSome = true ∧
            jsTruthy (jsGet p.loadedServers (loadedKey formType boardName)) = false
        · exact ⟨panel, rfl, hcond.1, hcond.2.2⟩
        · rw [if_neg hcond] at hreq
          exact absurd hreq hne
      · exact absurd (by simp [toggleServerNodes, hpanel, hgroup]) hne
  · intro k hk
    exact toggleServerNodes_other_keys srv formType boardName p k hk
  · intro other hform
    subst hform
    exact toggleServerNodes_other_keys srv "add" boardName p _ (loadedKey_add_ne_edit _ _)
  · intro other hform
    subst hform
    exact toggleServerNodes_other_keys srv "edit" boardName p _
      (fun h => loadedKey_add_ne_edit _ _ h.symm)

/-- C11, instance on the sample page: the first toggle of `srv1` in the add
form issues the request and marks `add_srv1`, and leaves `edit_srv1` unmarked. -/
theorem C11_toggle_flips_and_loads_once_witness :
    (toggleServerNodes sampleBackend "add" "srv1" samplePage).state.requests
      = ["/packages/get_nodes/srv1"] ∧
    jsGet (toggleServerNodes sampleBackend "add" "srv1" samplePage).state.loadedServers
      "add_srv1" = some true ∧
    jsGet (toggleServerNodes sampleBackend "add" "srv1" samplePage).state.loadedServers
      "edit_srv1" = none :=
  have h := C11_toggle_flips_and_loads_once sampleBackend "add" "srv1" samplePage
  ⟨((h.1 (freshPanel false) (by decide) (by decide)).2.2.1).trans (by decide),
   (h.1 (freshPanel false) (by decide) (by decide)).2.2.2 (by decide),
   (h.2.2.2.1 "srv1" rfl).trans (by decide)⟩

/-- C12: whatever the backend answers and whatever the reloads do,
`refreshAllNodes` returns normally with the triggering button enabled and
carrying the markup it had before the call; when the backend reports a
failure, the one alert shown carries the message of the backend, or `未知错误`
when the message is missing or empty, and `nodesCache` and `loadedServers`
are as before the call. -/
theorem C12_refresh_restores_button (srv : Backend) (formType : String) (p : Page) :
    (refreshAllNodes srv formType p).thrown = none ∧
    (refreshAllNodes srv formType p).state.refreshBtn
      = { disabled := false, innerHTML := p.refreshBtn.innerHTML } ∧
    ∀ data : RefreshData,
      srv.refreshNodes p.requests.length = Reply.json data → data.success = false →
      (∀ m : String, data.message = some m → m ≠ "" →
        (refreshAllNodes srv formType p).state.alerts = p.alerts ++ ["刷新失败: " ++ m]) ∧
      (data.message = none ∨ data.message = some "" →
        (refreshAllNodes srv formType p).state.alerts = p.alerts ++ ["刷新失败: 未知错误"]) ∧
      (refreshAllNodes srv formType p).state.nodesCache = p.nodesCache ∧
      (refreshAllNodes srv formType p).state.loadedServers = p.loadedServers := by
  refine ⟨rfl, rfl, ?_⟩
  intro data hreply hfail
  refine ⟨?_, ?_, ?_, ?_⟩
  · intro m hm hne
    simp [refreshAllNodes, refreshAllNodesTry, hreply, hfail, hm, hne]
  · intro hm
    rcases hm with hm | hm <;>
      simp [refreshAllNodes, refreshAllNodesTry, hreply, hfail, hm]
  · simp [refreshAllNodes, refreshAllNodesTry, hreply, hfail]
  · simp [refreshAllNodes, refreshAllNodesTry, hreply, hfail]

/-- C12, instance: a refresh of the sample page against a backend that reports
the failure `上游超时`. -/
theorem C12_refresh_restores_button_witness :
    (refreshAllNodes failingBackend "add" samplePage).state.refreshBtn
      = { disabled := false, innerHTML := "刷新节点" } ∧
    (refreshAllNodes failingBackend "add" samplePage).state.alerts = ["刷新失败: 上游超时"] ∧
    (refreshAllNodes failingBackend "add" samplePage).state.loadedServers = [] :=
  have h := C12_refresh_restores_button failingBackend "add" samplePage
  ⟨h.2.1,
   (h.2.2 { success := false, message := some "上游超时" } rfl rfl).1 "上游超时" rfl (by decide),
   (h.2.2 { success := false, message := some "上游超时" } rfl rfl).2.2.2⟩

/-! ### The reset of `editPackage` -/

theorem mem_modalRows_iff (panels : JsObject Panel) (r : NodeRow) :
    r ∈ modalRows panels
      ↔ ∃ kp ∈ panels, kp.2.inEditModal = true ∧ r ∈ bodyRows kp.2.body := by
  induction panels with
  | nil => simp [modalRows]
  | cons hd tl ih =>
    obtain ⟨k, panel⟩ := hd
    rcases hm : panel.inEditModal with _ | _
    · simp [modalRows, hm, ih]
    · cases hb : panel.body <;> simp [modalRows, hm, hb, ih, bodyRows]

theorem jsGet_mem {α : Type} (o : JsObject α) (k : String) (v : α)
    (h : jsGet o k = some v) : (k, v) ∈ o := by
  induction o with
  | nil => simp [jsGet] at h
  | cons hd tl ih =>
    obtain ⟨k', w⟩ := hd
    by_cases hk : k' = k
    · subst hk
      simp only [jsGet, if_true, Option.some.injEq] at h
      subst h
      simp
    · simp only [jsGet, hk, if_false] at h
      simp [ih h]

theorem mem_jsSet {α : Type} (o : JsObject α) (k : String) (v : α) (kv : String × α)
    (h : kv ∈ jsSet o k v) : kv ∈ o ∨ kv = (k, v) := by
  induction o with
  | nil => simpa [jsSet] using h
  | cons hd tl ih =>
    obtain ⟨k', w⟩ := hd
    by_cases hk : k' = k
    · subst hk
      simp only [jsSet, if_true, List.mem_cons] at h
      rcases h with h | h
      · exact Or.inr h
      · exact Or.inl (by simp [h])
    · simp only [jsSet, hk, if_false, List.mem_cons] at h
      rcases h with h | h
      · exact Or.inl (by simp [h])
      · rcases ih h with h | h
        · exact Or.inl (by simp [h])
        · exact Or.inr h

/-- Replacing a panel keeps the rows of the modal unchecked at rate `1.0` when
the rows of the new panel are. -/
theorem allReset_jsSet (panels : JsObject Panel) (k : String) (q : Panel)
    (h : allReset (modalRows panels))
    (hq : q.inEditModal = true → allReset (bodyRows q.body)) :
    allReset (modalRows (jsSet panels k q)) := by
  intro r hr
  obtain ⟨kp, hkp, hmod, hrow⟩ := (mem_modalRows_iff _ r).mp hr
  rcases mem_jsSet panels k q kp hkp with hold | hnew
  · exact h r ((mem_modalRows_iff _ r).mpr ⟨kp, hold, hmod, hrow⟩)
  · subst hnew
    exact hq hmod r hrow

theorem allReset_of_jsGet (panels : JsObject Panel) (k : String) (q : Panel)
    (h : allReset (modalRows panels)) (hget : jsGet panels k = some q)
    (hmod : q.inEditModal = true) : allReset (bodyRows q.body) := by
  intro r hr
  exact h r ((mem_modalRows_iff _ r).mpr ⟨(k, q), jsGet_mem _ _ _ hget, hmod, hr⟩)

theorem showPanel_allReset (elemId : String) (panel : Panel) (display icon : String)
    (p : Page) (hget : jsGet p.panels elemId = some panel)
    (h : allReset (modalRows p.panels)) :
    allReset (modalRows (showPanel elemId panel display icon p).state.panels) := by
  unfold showPanel
  cases panel.toggleIcon <;>
    exact allReset_jsSet _ _ _ h
      (fun hmod => allReset_of_jsGet p.panels elemId panel h hget hmod)

theorem setPanelBody_allReset (elemId : String) (body : PanelBody) (p : Page)
    (hbody : allReset (bodyRows body)) (h : allReset (modalRows p.panels)) :
    allReset (modalRows (setPanelBody elemId body p).state.panels) := by
  unfold setPanelBody
  cases hp : jsGet p.panels elemId with
  | none => exact h
  | some panel => exact allReset_jsSet _ _ _ h (fun _ => hbody)

theorem tryWritePanel_allReset (elemId : String) (body : PanelBody) (p : Page)
    (hbody : allReset (bodyRows body)) (h : allReset (modalRows p.panels)) :
    allReset (modalRows (tryWritePanel elemId body p).state.panels) := by
  simp only [tryWritePanel]
  split
  · exact setPanelBody_allReset _ _ _ hbody h
  · unfold loadNodesCatch
    exact setPanelBody_allReset _ _ _ (by intro r hr; simp [bodyRows] at hr)
      (by simpa using setPanelBody_allReset elemId body p hbody h)

/-- A call of `loadNodes` writes only rows that are unchecked at rate `1.0`. -/
theorem loadNodes_allReset (srv : Backend) (formType boardName : String) (p : Page)
    (h : allReset (modalRows p.panels)) :
    allReset (modalRows (loadNodes srv formType boardName p).state.panels) := by
  have hrendered : ∀ nodes : List NodeRec,
      allReset (bodyRows (PanelBody.rows (nodes.map (renderNode boardName)))) := by
    intro nodes r hr
    simp only [bodyRows, List.mem_map] at hr
    obtain ⟨n, _, rfl⟩ := hr
    exact ⟨rfl, rfl⟩
  have hempty : ∀ body : PanelBody, body = PanelBody.noData ∨ body = PanelBody.loadFailed →
      allReset (bodyRows body) := by
    intro body hb r hr
    rcases hb with rfl | rfl <;> simp [bodyRows] at hr
  unfold loadNodes
  rcases srv.getNodes p.requests.length boardName with m | m | data
  · exact setPanelBody_allReset _ _ _ (hempty _ (Or.inr rfl)) (by simpa using h)
  · exact setPanelBody_allReset _ _ _ (hempty _ (Or.inr rfl)) (by simpa using h)
  · obtain ⟨success, ns⟩ := data
    cases success <;> rcases ns with _ | (_ | ⟨n, ns⟩) <;> simp only [] <;>
      first
      | exact tryWritePanel_allReset _ _ _ (hempty _ (Or.inl rfl)) (by simpa using h)
      | exact tryWritePanel_allReset _ _ _ (hrendered _)
          (by simpa [cacheNodes_frame] using h)

theorem loadIfNeeded_allReset (srv : Backend) (formType boardName : String) (p : Page)
    (h : allReset (modalRows p.panels)) :
    allReset (modalRows (loadIfNeeded srv formType boardName p).state.panels) := by
  unfold loadIfNeeded
  split
  · exact h
  · have hl := loadNodes_allReset srv formType boardName p h
    simp only []
    split
    · exact hl
    · simpa [markLoaded] using hl

theorem expandAll_allReset (srv : Backend) :
    ∀ (servers : List String) (p : Page), allReset (modalRows p.panels) →
      allReset (modalRows (expandAll srv servers p).state.panels) := by
  intro servers
  induction servers with
  | nil => intro p h; exact h
  | cons b rest ih =>
    intro p h
    simp only [expandAll]
    cases hget : jsGet p.panels (panelId "edit" b) with
    | none => exact ih p h
    | some panel =>
      simp only []
      split
      · exact ih p h
      · have h1 := showPanel_allReset (panelId "edit" b) panel "block" "▲" p hget h
        split
        · exact h1
        · have h2 := loadIfNeeded_allReset srv "edit" b _ h1
          split
          · exact h2
          · exact ih _ h2

/-- When `editPackage` returns, or fails, every checkbox of the modal is
unchecked and every rate input of the modal holds `1.0`, whatever was selected
before the call. -/
theorem editPackage_rows_reset (srv : Backend) (packageId name totalTraffic : String)
    (nodes : List Selection) (p : Page) :
    allReset (modalRows (editPackage srv packageId name totalTraffic nodes p).state.panels) := by
  have hreset : allReset (modalRows (setModalRows (resetRows (modalRows p.panels)) p.panels)) := by
    rw [modalRows_setModalRows _ _ (by simp [resetRows])]
    intro r hr
    simp only [resetRows, List.mem_map] at hr
    obtain ⟨r0, _, rfl⟩ := hr
    exact ⟨rfl, rfl⟩
  have hloop := expandAll_allReset srv p.serversData
    { p with
      editName := name
      editTotalTraffic := totalTraffic
      editFormAction := "/packages/edit/" ++ packageId
      panels := setModalRows (resetRows (modalRows p.panels)) p.panels } hreset
  simp only [editPackage]
  split
  · exact hloop
  · exact hloop

/-- A second `editPackage` on the sample page drops the selection that the
first one restored: after selecting node 5 of `srv1` and then editing a
package that holds node 5 of `srv2`, only `srv2|5|us` is checked. -/
theorem editPackage_twice_sample :
    modalRows (runTimer
        (editPackage sampleBackend "4" "silver" "50" [⟨"srv2", 5, "us", "3"⟩]
          (runTimer (editPackage sampleBackend "3" "gold" "100" [⟨"srv1", 5, "hk", "2"⟩]
            samplePage).state)).state).panels
      = [ { value := "srv1|5|hk", checked := false, label := "hk", rateName := "rate_srv1_hk"
            rateId := "rate_srv1_hk", rateValue := "1.0" },
          { value := "srv1|7|jp", checked := false, label := "jp", rateName := "rate_srv1_jp"
            rateId := "rate_srv1_jp", rateValue := "1.0" },
          { value := "srv2|5|us", checked := true, label := "us", rateName := "rate_srv2_us"
            rateId := "rate_srv2_us", rateValue := "3" } ] := by
  decide

/-! ### The invalidation of `refreshAllNodes` -/

theorem mem_jsDelete {α : Type} (o : JsObject α) (k : String) (kv : String × α) :
    kv ∈ jsDelete o k ↔ kv ∈ o ∧ kv.1 ≠ k := by
  induction o with
  | nil => simp [jsDelete]
  | cons hd tl ih =>
    obtain ⟨k', w⟩ := hd
    by_cases hk : k' = k
    · subst hk
      simp only [jsDelete, if_true, ih, List.mem_cons]
      constructor
      · intro h
        exact ⟨Or.inr h.1, h.2⟩
      · rintro ⟨h | h, hne⟩
        · exact absurd (by rw [h]) hne
        · exact ⟨h, hne⟩
    · simp only [jsDelete, hk, if_false, List.mem_cons, ih]
      constructor
      · rintro (h | h)
        · exact ⟨Or.inl h, by rw [h]; exact hk⟩
        · exact ⟨Or.inr h.1, h.2⟩
      · rintro ⟨h | h, hne⟩
        · exact Or.inl h
        · exact Or.inr ⟨h, hne⟩

theorem jsGet_jsDelete {α : Type} (o : JsObject α) (k k' : String) :
    jsGet (jsDelete o k) k' = if k = k' then none else jsGet o k' := by
  induction o with
  | nil => simp [jsDelete, jsGet]
  | cons hd tl ih =>
    obtain ⟨k0, w⟩ := hd
    by_cases h0 : k0 = k
    · subst h0
      by_cases h1 : k0 = k'
      · subst h1
        simp [jsDelete, ih]
      · simp [jsDelete, jsGet, ih, h1]
    · by_cases h1 : k0 = k'
      · subst h1
        have h0' : ¬ k = k0 := fun e => h0 e.symm
        simp [jsDelete, jsGet, h0, h0']
      · simp [jsDelete, jsGet, h0, h1, ih]

theorem jsGet_eq_none_of_not_mem_keys {α : Type} (o : JsObject α) (k : String)
    (h : k ∉ jsKeys o) : jsGet o k = none := by
  induction o with
  | nil => rfl
  | cons hd tl ih =>
    obtain ⟨k0, w⟩ := hd
    simp only [jsKeys, List.map_cons, List.mem_cons, not_or] at h
    have hne : k0 ≠ k := fun e => h.1 e.symm
    simp only [jsGet, hne, if_false]
    exact ih h.2

/-- The first loop of the invalidation empties `nodesCache`. -/
theorem clearCache_eq_nil (cache : JsObject (List NodeRec)) : clearCache cache = [] := by
  have key : ∀ (keys : List String) (o : JsObject (List NodeRec)),
      (∀ kv ∈ o, kv.1 ∈ keys) → keys.foldl (fun o key => jsDelete o key) o = [] := by
    intro keys
    induction keys with
    | nil =>
      intro o h
      exact List.eq_nil_iff_forall_not_mem.mpr (fun kv hkv => by simpa using h kv hkv)
    | cons k ks ih =>
      intro o h
      simp only [List.foldl_cons]
      apply ih
      intro kv hkv
      obtain ⟨hmem, hne⟩ := (mem_jsDelete o k kv).mp hkv
      rcases List.mem_cons.mp (h kv hmem) with h1 | h1
      · exact absurd h1 hne
      · exact h1
  exact key (jsKeys cache) cache (fun kv hkv => List.mem_map_of_mem Prod.fst hkv)

/-- The second loop of the invalidation removes from `loadedServers` exactly
the keys that start with `formType_`. -/
theorem clearLoaded_get (formType : String) (loaded : JsObject Bool) (k : String) :
    jsGet (clearLoaded formType loaded) k
      = if jsStartsWith k (formType ++ "_") then none else jsGet loaded k := by
  have key : ∀ (keys : List String) (o : JsObject Bool),
      jsGet (keys.foldl
          (fun o key => if jsStartsWith key (formType ++ "_") then jsDelete o key else o) o) k
        = if k ∈ keys ∧ jsStartsWith k (formType ++ "_") = true then none else jsGet o k := by
    intro keys
    induction keys with
    | nil => intro o; simp
    | cons k0 ks ih =>
      intro o
      simp only [List.foldl_cons]
      rw [ih]
      by_cases hs : jsStartsWith k (formType ++ "_") = true
      · by_cases hks : k ∈ ks
        · simp [hks, hs]
        · by_cases h0 : k0 = k
          · subst h0
            simp [hks, hs, jsGet_jsDelete]
          · have h0' : ¬ k = k0 := fun e => h0 e.symm
            by_cases hs0 : jsStartsWith k0 (formType ++ "_") = true
            · simp [hks, hs, h0', hs0, jsGet_jsDelete, h0]
            · simp [hks, hs, h0', hs0]
      · by_cases hs0 : jsStartsWith k0 (formType ++ "_") = true
        · have h0 : k0 ≠ k := fun e => hs (e ▸ hs0)
          simp [hs, hs0, jsGet_jsDelete, h0]
        · simp [hs, hs0]
  unfold clearLoaded
  rw [key]
  by_cases hs : jsStartsWith k (formType ++ "_") = true
  · by_cases hk : k ∈ jsKeys loaded
    · simp [hs, hk]
    · simp [hs, hk, jsGet_eq_none_of_not_mem_keys loaded k hk]
  · simp [hs]

/-- A successful refresh of the add form of a page that has been used: the
entries of the server that is no longer listed are gone, the mark of the edit
form stays, and both listed servers are cached anew and marked. -/
theorem refreshAllNodes_used_sample :
    (refreshAllNodes sampleBackend "add" usedPage).state.nodesCache
      = [("srv1", [⟨5, "hk"⟩, ⟨7, "jp"⟩]), ("srv2", [⟨5, "us"⟩])] ∧
    (refreshAllNodes sampleBackend "add" usedPage).state.loadedServers
      = [("edit_srv1", true), ("add_srv1", true), ("add_srv2", true)] := by
  decide

/-- A server whose name is that of an inherited member of the cache object is
never cached. -/
theorem loadNodes_inherited_name_sample :
    (loadNodes sampleBackend "add" "constructor" samplePage).state.nodesCache = [] ∧
    (loadNodes sampleBackend "add" "srv2" samplePage).state.nodesCache
      = [("srv2", [⟨5, "us"⟩])] := by
  decide

end Packages

/-! ### Decimal texts -/

theorem digitChar_eq_natDigitChar (d : Nat) (h : d < 10) : digitChar d = Nat.digitChar d := by
  interval_cases d <;> rfl

theorem toDigitsCore_eq_natDigitsAux (fuel n : Nat) (ds : List Char) (h : n < fuel) :
    Nat.toDigitsCore 10 fuel n ds = natDigitsAux fuel n ++ ds := by
  induction fuel generalizing n ds with
  | zero => omega
  | succ fuel ih =>
    simp only [Nat.toDigitsCore, natDigitsAux]
    by_cases hn : n < 10
    · have hdiv : n / 10 = 0 := Nat.div_eq_of_lt hn
      have hmod : n % 10 = n := Nat.mod_eq_of_lt hn
      simp [hn, hdiv, hmod, digitChar_eq_natDigitChar n hn]
    · have hdiv : n / 10 ≠ 0 := by omega
      have hlt : n / 10 < fuel := by omega
      simp only [hn, hdiv, if_false]
      rw [ih (n / 10) _ hlt, digitChar_eq_natDigitChar (n % 10) (Nat.mod_lt _ (by decide))]
      simp

/-- The digits that the embedding writes for a natural number are those of the
decimal representation of the standard library. -/
theorem natDigits_eq_toDigits (n : Nat) : natDigits n = Nat.toDigits 10 n := by
  unfold natDigits Nat.toDigits
  rw [toDigitsCore_eq_natDigitsAux (n + 1) n [] (by omega)]
  simp

theorem jsIntToString_natCast (n : Nat) : jsIntToString (n : Int) = toString n := by
  show String.mk (natDigits n) = _
  rw [natDigits_eq_toDigits]
  rfl

namespace Nodes

/-- The text of `n / 100` with two decimals is the decimal text of the whole
part, a point, and the two digits of the hundredths. -/
theorem hundredthsText_eq (n : Nat) :
    hundredthsText n
      = toString (n / 100) ++ "." ++ toString (n / 10 % 10) ++ toString (n % 10) := by
  have hdigit : ∀ d : Nat, d < 10 → toString d = String.mk [digitChar d] := by
    intro d hd
    interval_cases d <;> rfl
  have hwhole : toString (n / 100) = String.mk (natDigits (n / 100)) := by
    rw [natDigits_eq_toDigits]
    rfl
  rw [hdigit _ (Nat.mod_lt _ (by decide)), hdigit _ (Nat.mod_lt _ (by decide)), hwhole]
  apply String.ext
  simp [hundredthsText, String.data_append]

end Nodes

end SubBoard
